import Mathlib

/-!
Shallow embedding of the golem-social-net-ts core in Lean 4, together with
theorems settling the specification claims.

Sources embedded (TypeScript):
  src/components-ts/social-net-ts-social-net/src/common/types.ts
  src/components-ts/social-net-ts-social-net/src/common/query.ts
  src/components-ts/social-net-ts-social-net/src/common/poll.ts  (src/unnamed/part_003)
  src/components-ts/social-net-ts-social-net/src/user-timeline/index.ts
  src/components-ts/social-net-ts-social-net/src/user_posts/index.ts (UserChatsAgent)
  src/components-ts/social-net-ts-social-net/src/post/index.ts
  src/components-ts/social-net-ts-social-net/src/chat/index.ts
  src/components-ts/social-net-ts-social-net/src/user/index.ts

Modelling conventions:
  - JS strings are Lean `String`; `localeCompare` on the fixed-width ISO
    timestamp strings used here is the code-point lexicographic order, which
    we model on `String.toList` (`List Char` lexicographic order).
  - `Array.prototype.sort` with a consistent comparator computes the stable
    sort; we model it with `List.insertionSort`, which is a stable sort,
    so it is extensionally the same function.
  - Mutating class methods become pure state transformers; actor state
    `this.state : T | null` becomes `Option T`; fire-and-forget `trigger`
    calls become explicit lists of emitted notification values.
  - Fresh UUIDs (`uuidv4()`, `crypto.randomUUID()`) become explicit input
    parameters.
  - Wall-clock reads (`getCurrentTimestamp()`, `Date.now()`) become explicit
    `now` parameters; where one method reads the clock several times in a
    row we pass a single `now` (the distinct readings play no role in any
    claim).
-/

namespace SocialNet

/-- Timestamp (common/utils.ts `getCurrentTimestamp`): a record holding an
ISO-8601-like string, ordered by string comparison. -/
structure Timestamp where
  timestamp : String
deriving Repr, DecidableEq

/-- Boolean string-lexicographic order on timestamps, `a <= b`. -/
def tsLe (a b : Timestamp) : Bool :=
  decide (a.timestamp.toList ≤ b.timestamp.toList)

/-- Boolean string-lexicographic strict order on timestamps, `a < b`:
models the JS comparison `b.timestamp > a.timestamp`. -/
def tsLt (a b : Timestamp) : Bool :=
  decide (a.timestamp.toList < b.timestamp.toList)

/-- UserConnectionType (common/types.ts). -/
inductive UserConnectionType where
  | Friend
  | Follower
  | Following
deriving Repr, DecidableEq

/-- getOppositeConnectionType (common/types.ts). -/
def getOppositeConnectionType : UserConnectionType → UserConnectionType
  | .Follower => .Following
  | .Following => .Follower
  | .Friend => .Friend

/-- LikeType (common/types.ts). -/
inductive LikeType where
  | Like
  | Insightful
  | Love
  | Dislike
deriving Repr, DecidableEq

/-- Result type of the golem SDK: commands return `ok` or `err`. -/
inductive Result (α ε : Type) where
  | ok (val : α)
  | err (msg : ε)
deriving Repr, DecidableEq

/-- Result.isOk. -/
def Result.isOk {α ε : Type} : Result α ε → Bool
  | .ok _ => true
  | .err _ => false

/-! Timeline registry (user-timeline/index.ts, `UserTimelineAgent`). -/

/-- PostRef (user-timeline/index.ts). -/
structure PostRef where
  postId : String
  createdBy : String
  createdByConnectionType : Option UserConnectionType
  createdAt : Timestamp
  updatedAt : Timestamp
deriving Repr, DecidableEq

/-- UserTimeline (user-timeline/index.ts). -/
structure UserTimeline where
  userId : String
  posts : List PostRef
  createdAt : Timestamp
  updatedAt : Timestamp
deriving Repr, DecidableEq

/-- UserTimelineUpdates (user-timeline/index.ts). -/
structure UserTimelineUpdates where
  userId : String
  posts : List PostRef
deriving Repr, DecidableEq

/-- POSTS_MAX_COUNT (user-timeline/index.ts). -/
def POSTS_MAX_COUNT : Nat := 500

/-- Descending-by-`updatedAt` order on post refs: `a` may come before `b`.
This is the order produced by the comparator
`(a, b) => b.updatedAt.timestamp.localeCompare(a.updatedAt.timestamp)`. -/
def PostRef.descLe (a b : PostRef) : Prop :=
  b.updatedAt.timestamp.toList ≤ a.updatedAt.timestamp.toList

instance : DecidableRel PostRef.descLe := fun a b =>
  inferInstanceAs (Decidable (_ ≤ _))

instance : IsTotal PostRef PostRef.descLe :=
  ⟨fun a b => (le_total b.updatedAt.timestamp.toList a.updatedAt.timestamp.toList).imp id id⟩

instance : IsTrans PostRef PostRef.descLe :=
  ⟨fun _ _ _ h1 h2 => le_trans h2 h1⟩

/-- The stable descending sort used by the timeline registry
(`state.posts.sort((a, b) => b.updatedAt.timestamp.localeCompare(a.updatedAt.timestamp))`). -/
def sortPostRefs (l : List PostRef) : List PostRef :=
  List.insertionSort PostRef.descLe l

/-- Lazily initialized empty timeline state (`UserTimelineAgent.getState`). -/
def emptyTimeline (userId : String) (now : Timestamp) : UserTimeline :=
  { userId := userId, posts := [], createdAt := now, updatedAt := now }

/-- UserTimelineAgent.postsUpdated (user-timeline/index.ts, lines 85-102):
drop existing entries whose id occurs in the incoming batch, append the whole
batch, re-sort descending by `updatedAt`, truncate to 500. -/
def postsUpdated (tl : UserTimeline) (posts : List PostRef) (now : Timestamp) :
    UserTimeline :=
  let ids := posts.map (fun p => p.postId)
  let kept := tl.posts.filter (fun p => !(ids.contains p.postId))
  let merged := kept ++ posts
  let sorted := sortPostRefs merged
  { tl with posts := sorted.take POSTS_MAX_COUNT, updatedAt := now }

/-- UserTimelineAgent.getUpdates (user-timeline/index.ts, lines 69-81):
`null` when the state was never created, otherwise the refs with
`updatedAt.timestamp > since.timestamp`. -/
def getTimelineUpdates (state : Option UserTimeline) (since : Timestamp) :
    Option UserTimelineUpdates :=
  match state with
  | none => none
  | some tl =>
      some { userId := tl.userId
             posts := tl.posts.filter (fun p => tsLt since p.updatedAt) }

/-! Chat registry (user_posts/index.ts, `UserChatsAgent`). -/

/-- ChatRef (user_posts/index.ts). -/
structure ChatRef where
  chatId : String
  createdBy : String
  createdAt : Timestamp
  updatedAt : Timestamp
deriving Repr, DecidableEq

/-- UserChats (user_posts/index.ts). -/
structure UserChats where
  userId : String
  chats : List ChatRef
  createdAt : Timestamp
  updatedAt : Timestamp
deriving Repr, DecidableEq

/-- UserChatsUpdates (user_posts/index.ts). -/
structure UserChatsUpdates where
  userId : String
  chats : List ChatRef
deriving Repr, DecidableEq

/-- CHATS_MAX_COUNT (user_posts/index.ts). -/
def CHATS_MAX_COUNT : Nat := 500

/-- Descending-by-`updatedAt` order on chat refs. -/
def ChatRef.descLe (a b : ChatRef) : Prop :=
  b.updatedAt.timestamp.toList ≤ a.updatedAt.timestamp.toList

instance : DecidableRel ChatRef.descLe := fun a b =>
  inferInstanceAs (Decidable (_ ≤ _))

instance : IsTotal ChatRef ChatRef.descLe :=
  ⟨fun a b => (le_total b.updatedAt.timestamp.toList a.updatedAt.timestamp.toList).imp id id⟩

instance : IsTrans ChatRef ChatRef.descLe :=
  ⟨fun _ _ _ h1 h2 => le_trans h2 h1⟩

/-- The stable descending sort used by the chat registry. -/
def sortChatRefs (l : List ChatRef) : List ChatRef :=
  List.insertionSort ChatRef.descLe l

/-- Lazily initialized empty chat-registry state (`UserChatsAgent.getState`). -/
def emptyUserChats (userId : String) (now : Timestamp) : UserChats :=
  { userId := userId, chats := [], createdAt := now, updatedAt := now }

/-- UserChatsAgent.addChat (user_posts/index.ts, lines 307-327): a no-op when
the id is already present, otherwise push a fresh ref (its `updatedAt` is the
current time), re-sort, truncate to 500. -/
def addChat (st : UserChats) (chatId createdBy : String)
    (createdAt now : Timestamp) : UserChats :=
  if st.chats.any (fun c => c.chatId == chatId) then st
  else
    let pushed := st.chats ++
      [{ chatId := chatId, createdBy := createdBy, createdAt := createdAt
         updatedAt := now }]
    { st with chats := (sortChatRefs pushed).take CHATS_MAX_COUNT
              updatedAt := now }

/-- Helper for `chatUpdated`: replace the `updatedAt` of the first ref whose
id matches (the `findIndex` / assignment pair in the source); `none` when no
ref matches. -/
def setUpdatedAtFirst (chatId : String) (ts : Timestamp) :
    List ChatRef → Option (List ChatRef)
  | [] => none
  | c :: cs =>
      if c.chatId = chatId then some ({ c with updatedAt := ts } :: cs)
      else (setUpdatedAtFirst chatId ts cs).map (fun cs2 => c :: cs2)

/-- UserChatsAgent.chatUpdated (user_posts/index.ts, lines 289-303): targeted
update of one existing ref, then re-sort; `err` when the id is absent. -/
def chatUpdated (st : UserChats) (chatId : String) (updatedAt now : Timestamp) :
    Result Unit String × UserChats :=
  match setUpdatedAtFirst chatId updatedAt st.chats with
  | some chats1 =>
      (.ok (), { st with chats := sortChatRefs chats1, updatedAt := now })
  | none => (.err "Chat not found", st)

/-- UserChatsAgent.createChat (user_posts/index.ts, lines 244-269), state
change only: push a ref for the freshly generated chat id, re-sort, truncate
to 500.  The generated UUID is the `chatId` parameter. -/
def createChat (st : UserChats) (chatId : String) (now : Timestamp) :
    UserChats :=
  let pushed := st.chats ++
    [{ chatId := chatId, createdBy := st.userId, createdAt := now
       updatedAt := now }]
  { st with chats := (sortChatRefs pushed).take CHATS_MAX_COUNT
            updatedAt := now }

/-- UserChatsAgent.getUpdates (user_posts/index.ts, lines 273-285). -/
def getChatUpdates (state : Option UserChats) (since : Timestamp) :
    Option UserChatsUpdates :=
  match state with
  | none => none
  | some st =>
      some { userId := st.userId
             chats := st.chats.filter (fun c => tsLt since c.updatedAt) }

/-- The chat-registry upsert operations named by the registry claims. -/
inductive ChatRegOp where
  | addChat (chatId createdBy : String) (createdAt now : Timestamp)
  | chatUpdated (chatId : String) (updatedAt now : Timestamp)
  | createChat (chatId : String) (now : Timestamp)
deriving Repr, DecidableEq

/-- Apply one chat-registry operation (the command result is discarded). -/
def applyChatOp (st : UserChats) : ChatRegOp → UserChats
  | .addChat chatId createdBy createdAt now => addChat st chatId createdBy createdAt now
  | .chatUpdated chatId updatedAt now => (chatUpdated st chatId updatedAt now).2
  | .createChat chatId now => createChat st chatId now

/-- Apply a sequence of chat-registry operations. -/
def applyChatOps (st : UserChats) (ops : List ChatRegOp) : UserChats :=
  ops.foldl applyChatOp st

/-- Apply a sequence of `postsUpdated` batches to a timeline. -/
def applyTimelineBatches (tl : UserTimeline)
    (batches : List (List PostRef × Timestamp)) : UserTimeline :=
  batches.foldl (fun t b => postsUpdated t b.1 b.2) tl

/-- Freshness of the UUIDs generated by `createChat` along a sequence of
operations: each generated id differs from every chat id introduced (by
`addChat` or `createChat`) earlier in the run, and from the ids already
seen at the start. -/
def chatOpsFresh : List String → List ChatRegOp → Prop
  | _, [] => True
  | seen, .addChat chatId _ _ _ :: rest => chatOpsFresh (chatId :: seen) rest
  | seen, .chatUpdated _ _ _ :: rest => chatOpsFresh seen rest
  | seen, .createChat chatId _ :: rest =>
      chatId ∉ seen ∧ chatOpsFresh (chatId :: seen) rest

/-! Long-poll loop (common/poll.ts, src/unnamed/part_003, `pollForUpdates`). -/

/-- Loop body of `pollForUpdates`, under the idealization that each fetch
call returns instantly, so the elapsed wall-clock time at the check after
the fetch of iteration `k` is `k * iterWait` (the `k` sleeps performed so
far).  `fetch k` is the result of the fetch on iteration `k`: `none` models
`undefined` (target absent), `some l` models a returned list.  The `fuel`
argument only forces termination; with `0 < iterWait` the loop always stops
before exhausting the fuel supplied by `pollForUpdates`. -/
def pollLoop {α : Type} (fetch : Nat → Option (List α)) (iterWait maxWait : Nat) :
    Nat → Nat → Nat → Option (List α)
  | 0, _, _ => some []
  | fuel + 1, k, elapsed =>
    match fetch k with
    | none => none
    | some res =>
        if 0 < res.length then some res
        else if maxWait ≤ elapsed then some []
        else pollLoop fetch iterWait maxWait fuel (k + 1) (elapsed + iterWait)

/-- pollForUpdates (common/poll.ts): defaults `iterWaitTime` to 1000 and
`maxWaitTime` to 10000, then runs the polling loop from iteration 0 with
zero elapsed time. -/
def pollForUpdates {α : Type} (fetch : Nat → Option (List α))
    (iterWaitTimeMs maxWaitTimeMs : Option Nat) : Option (List α) :=
  let maxWait := maxWaitTimeMs.getD 10000
  let iterWait := iterWaitTimeMs.getD 1000
  pollLoop fetch iterWait maxWait (maxWait / iterWait + 2) 0 0

/-! Query language (common/query.ts). -/

/-- Trimming of ASCII whitespace from both ends of a character list; models
`String.prototype.trim` on the inputs at hand. -/
def trimChars (l : List Char) : List Char :=
  ((l.dropWhile Char.isWhitespace).reverse.dropWhile Char.isWhitespace).reverse

/-- Character-level loop of `tokenize` (common/query.ts, lines 17-40):
`current` is the accumulator, `inQuotes` the quote-region flag.  A space
outside quotes pushes the trimmed accumulator when it is non-empty; a double
quote toggles the flag and is itself dropped; every other character is
appended to the accumulator. -/
def tokenizeAux : List Char → List Char → Bool → List (List Char)
  | [], current, _ => if current = [] then [] else [trimChars current]
  | c :: cs, current, inQuotes =>
    if c = ' ' ∧ inQuotes = false then
      if current = [] then tokenizeAux cs [] inQuotes
      else trimChars current :: tokenizeAux cs [] inQuotes
    else if c = '"' then tokenizeAux cs current (!inQuotes)
    else tokenizeAux cs (current ++ [c]) inQuotes

/-- tokenize (common/query.ts, lines 17-40). -/
def tokenize (query : String) : List String :=
  (tokenizeAux query.toList [] false).map String.mk

/-- Modelled from the spec: the claim describes the tokenizer as splitting
on unquoted whitespace (any whitespace character); this definition follows
that wording, for comparison with the `tokenize` embedded from the source
(which splits on the space character only). -/
def tokenizeSpecWhitespace (query : String) : List String :=
  (go query.toList [] false).map String.mk
where
  go : List Char → List Char → Bool → List (List Char)
    | [], current, _ => if current = [] then [] else [current]
    | c :: cs, current, inQuotes =>
      if c.isWhitespace ∧ inQuotes = false then
        if current = [] then go cs [] inQuotes
        else current :: go cs [] inQuotes
      else if c = '"' then go cs current (!inQuotes)
      else go cs (current ++ [c]) inQuotes

/-- Splitter at the first colon: `some (before, after)` when the list
contains a colon, matching `part.indexOf(":")` plus the two
`substring` calls in the `Query` constructor. -/
def splitAtFirstColon : List Char → Option (List Char × List Char)
  | [] => none
  | c :: cs =>
      if c = ':' then some ([], cs)
      else (splitAtFirstColon cs).map (fun p => (c :: p.1, p.2))

/-- Query (common/query.ts, lines 42-62): free terms and field filters. -/
structure Query where
  terms : List String
  fieldFilters : List (String × String)
deriving Repr, DecidableEq

/-- One step of the `Query` constructor loop over tokens. -/
def parseTokenStep (q : Query) (part : String) : Query :=
  match splitAtFirstColon part.toList with
  | some (f, v) =>
      { q with fieldFilters :=
          q.fieldFilters ++ [(String.mk (f.map Char.toLower), String.mk v)] }
  | none => { q with terms := q.terms ++ [part] }

/-- Query constructor (common/query.ts): tokenize, then classify each token. -/
def Query.ofString (query : String) : Query :=
  (tokenize query).foldl parseTokenStep { terms := [], fieldFilters := [] }

/-! Post actor and fan-out coordinator (post/index.ts). -/

/-- MAX_COMMENTS_LENGTH (post/index.ts). -/
def MAX_COMMENTS_LENGTH : Nat := 2000

/-- Comment (post/index.ts). -/
structure Comment where
  commentId : String
  parentCommentId : Option String
  content : String
  likes : List (String × LikeType)
  createdBy : String
  createdAt : Timestamp
  updatedAt : Timestamp
deriving Repr, DecidableEq

/-- Post (post/index.ts). -/
structure Post where
  postId : String
  content : String
  createdBy : String
  likes : List (String × LikeType)
  comments : List (String × Comment)
  createdAt : Timestamp
  updatedAt : Timestamp
deriving Repr, DecidableEq

/-- PostUpdate (post/index.ts). -/
structure PostUpdate where
  postId : String
  createdAt : Timestamp
  updatedAt : Timestamp
deriving Repr, DecidableEq

/-- PostUpdates (post/index.ts): the pending queue of the fan-out
coordinator, owned by `TimelinesUpdaterAgent`. -/
structure PostUpdates where
  userId : String
  updates : List PostUpdate
  createdAt : Timestamp
  updatedAt : Timestamp
deriving Repr, DecidableEq

/-- initPostUpdates (post/index.ts, lines 89-96). -/
def initPostUpdates (userId : String) (now : Timestamp) : PostUpdates :=
  { userId := userId, updates := [], createdAt := now, updatedAt := now }

/-- updatePostUpdates (post/index.ts, lines 98-106): upsert keyed by postId
(last write wins). -/
def updatePostUpdates (state : PostUpdates) (update : PostUpdate)
    (now : Timestamp) : PostUpdates :=
  { state with
      updates := state.updates.filter (fun u => u.postId ≠ update.postId) ++ [update]
      updatedAt := now }

/-- ConnectedUser (user/index.ts). -/
structure ConnectedUser where
  userId : String
  connectionTypes : List UserConnectionType
  createdAt : Timestamp
  updatedAt : Timestamp
deriving Repr, DecidableEq

/-- User (user/index.ts). -/
structure User where
  userId : String
  name : Option String
  email : Option String
  connectedUsers : List (String × ConnectedUser)
  createdAt : Timestamp
  updatedAt : Timestamp
deriving Repr, DecidableEq

/-- A `postsUpdated` trigger sent to one timeline registry: target user id
and the ref batch. -/
structure TimelineNotification where
  target : String
  refs : List PostRef
deriving Repr, DecidableEq

/-- TimelinesUpdaterAgent.executePostsUpdates (post/index.ts, lines 157-200):
the drain.  An empty queue is a no-op; with a missing author
(`getUser` returned `null`, modelled as `user = none`) the method only logs,
leaving the queue untouched; otherwise it clears the queue and emits one
batch for the author plus one batch per (connected user, connection type)
pair. -/
def executePostsUpdates (st : PostUpdates) (user : Option User)
    (now : Timestamp) : PostUpdates × List TimelineNotification :=
  if st.updates = [] then (st, [])
  else
    match user with
    | none => (st, [])
    | some u =>
        let updates := st.updates
        let st2 := { st with updates := [], updatedAt := now }
        let postRefs : List PostRef := updates.map (fun up =>
          { postId := up.postId, createdBy := st.userId
            createdByConnectionType := none
            createdAt := up.createdAt, updatedAt := up.updatedAt })
        let own : TimelineNotification := { target := st.userId, refs := postRefs }
        let connNotifs : List TimelineNotification :=
          u.connectedUsers.flatMap (fun cuT =>
            cuT.2.connectionTypes.map (fun ct =>
              { target := cuT.2.userId
                refs := updates.map (fun up =>
                  { postId := up.postId, createdBy := st.userId
                    createdByConnectionType := some ct
                    createdAt := up.createdAt, updatedAt := up.updatedAt }) }))
        (st2, own :: connNotifs)

/-- initPostState (post/index.ts, lines 214-224). -/
def initPostState (postId : String) (now : Timestamp) : Post :=
  { postId := postId, content := "", createdBy := "", likes := []
    comments := [], createdAt := now, updatedAt := now }

/-- setPostLike (post/index.ts, lines 235-244): like upsert, one entry per
user, last write wins. -/
def setPostLike (post : Post) (userId : String) (likeType : LikeType)
    (now : Timestamp) : Post :=
  { post with
      likes := post.likes.filter (fun l => l.1 ≠ userId) ++ [(userId, likeType)]
      updatedAt := now }

/-- removePostLike (post/index.ts, lines 246-260). -/
def removePostLike (post : Post) (userId : String) (now : Timestamp) :
    Result Unit String × Post :=
  let remaining := post.likes.filter (fun l => l.1 ≠ userId)
  if remaining.length ≠ post.likes.length then
    (.ok (), { post with likes := remaining, updatedAt := now })
  else (.err "Like not found", post)

/-- addPostComment (post/index.ts, lines 262-289); the fresh UUID is the
`commentId` parameter. -/
def addPostComment (post : Post) (userId content : String)
    (parentCommentId : Option String) (commentId : String) (now : Timestamp) :
    Result String String × Post :=
  if MAX_COMMENTS_LENGTH ≤ post.comments.length then
    (.err "Max comments limit reached", post)
  else
    let comment : Comment :=
      { commentId := commentId, parentCommentId := parentCommentId
        content := content, likes := [], createdBy := userId
        createdAt := now, updatedAt := now }
    (.ok commentId,
     { post with comments := post.comments ++ [(commentId, comment)]
                 updatedAt := now })

/-- removePostComment (post/index.ts, lines 291-307): keep only the entries
whose id differs from `commentId` and whose parent id differs from
`commentId`; `err` when that removed nothing. -/
def removePostComment (post : Post) (commentId : String) (now : Timestamp) :
    Result Unit String × Post :=
  let remaining := post.comments.filter (fun c =>
    decide (c.1 ≠ commentId ∧ c.2.parentCommentId ≠ some commentId))
  if remaining.length ≠ post.comments.length then
    (.ok (), { post with comments := remaining, updatedAt := now })
  else (.err "Comment not found", post)

/-- Helper applying an update to the first comment entry matching an id
(models `post.comments.find(...)` followed by in-place mutation). -/
def updateFirstComment (commentId : String) (f : Comment → Comment) :
    List (String × Comment) → Option (List (String × Comment))
  | [] => none
  | c :: cs =>
      if c.1 = commentId then some ((c.1, f c.2) :: cs)
      else (updateFirstComment commentId f cs).map (fun cs2 => c :: cs2)

/-- setPostCommentLike (post/index.ts, lines 309-327). -/
def setPostCommentLike (post : Post) (commentId userId : String)
    (likeType : LikeType) (now : Timestamp) : Result Unit String × Post :=
  match updateFirstComment commentId
      (fun cm => { cm with
          likes := cm.likes.filter (fun l => l.1 ≠ userId) ++ [(userId, likeType)]
          updatedAt := now }) post.comments with
  | some cs => (.ok (), { post with comments := cs, updatedAt := now })
  | none => (.err "Comment not found", post)

/-- removePostCommentLike (post/index.ts, lines 329-348).  The source finds
the comment, filters its likes, and only reports success (touching the
timestamps) when a like was removed; otherwise the filtered list (equal to
the original) is kept and `err` is returned. -/
def removePostCommentLike (post : Post) (commentId userId : String)
    (now : Timestamp) : Result Unit String × Post :=
  match post.comments.find? (fun c => c.1 = commentId) with
  | none => (.err "Comment not found", post)
  | some c0 =>
      let remaining := c0.2.likes.filter (fun l => l.1 ≠ userId)
      if remaining.length ≠ c0.2.likes.length then
        match updateFirstComment commentId
            (fun cm => { cm with
                likes := cm.likes.filter (fun l => l.1 ≠ userId)
                updatedAt := now }) post.comments with
        | some cs => (.ok (), { post with comments := cs, updatedAt := now })
        | none => (.err "Comment not found", post)
      else (.err "Comment not found",
            match updateFirstComment commentId
                (fun cm => { cm with
                    likes := cm.likes.filter (fun l => l.1 ≠ userId) })
                post.comments with
            | some cs => { post with comments := cs }
            | none => post)

/-! Chat actor (chat/index.ts). -/

/-- MAX_CHAT_LENGTH (chat/index.ts). -/
def MAX_CHAT_LENGTH : Nat := 2000

/-- Message (chat/index.ts). -/
structure Message where
  messageId : String
  content : String
  likes : List (String × LikeType)
  createdBy : String
  createdAt : Timestamp
  updatedAt : Timestamp
deriving Repr, DecidableEq

/-- Chat (chat/index.ts). -/
structure Chat where
  chatId : String
  createdBy : String
  participants : List String
  messages : List Message
  createdAt : Timestamp
  updatedAt : Timestamp
deriving Repr, DecidableEq

/-- A chat-registry trigger emitted by the chat actor. -/
inductive ChatNotification where
  | addChat (target chatId createdBy : String) (createdAt : Timestamp)
  | chatUpdated (target chatId : String) (updatedAt : Timestamp)
deriving Repr, DecidableEq

/-- ChatNotification.isChatUpdated. -/
def ChatNotification.isChatUpdated : ChatNotification → Bool
  | .chatUpdated _ _ _ => true
  | .addChat _ _ _ _ => false

/-- ChatNotification.target. -/
def ChatNotification.target : ChatNotification → String
  | .chatUpdated t _ _ => t
  | .addChat t _ _ _ => t

/-- executeChatUpdates (chat/index.ts, lines 36-44): one `chatUpdated`
trigger per listed participant. -/
def executeChatUpdates (chatId : String) (participantsIds : List String)
    (updatedAt : Timestamp) : List ChatNotification :=
  participantsIds.map (fun pId => .chatUpdated pId chatId updatedAt)

/-- executeAddChat (chat/index.ts, lines 46-57): one `addChat` trigger per
listed participant, skipping the creator. -/
def executeAddChat (chatId createdBy : String) (createdAt : Timestamp)
    (participantsIds : List String) : List ChatNotification :=
  (participantsIds.filter (fun pId => pId ≠ createdBy)).map
    (fun pId => .addChat pId chatId createdBy createdAt)

/-- Insertion step of a JS `Set` built by iterating: keep first occurrence. -/
def jsSetInsert (l : List String) (x : String) : List String :=
  if x ∈ l then l else l ++ [x]

/-- Insertion-ordered de-duplication, models `Array.from(new Set(xs))`. -/
def jsSetOfList (xs : List String) : List String :=
  xs.foldl jsSetInsert []

/-- addChatMessage (chat/index.ts, lines 99-121); the fresh UUID is the
`messageId` parameter. -/
def addChatMessage (chat : Chat) (userId content messageId : String)
    (now : Timestamp) : Result Message String × Chat :=
  if MAX_CHAT_LENGTH ≤ chat.messages.length then (.err "Max chat length", chat)
  else
    let message : Message :=
      { messageId := messageId, content := content, likes := []
        createdBy := userId, createdAt := now, updatedAt := now }
    (.ok message,
     { chat with updatedAt := now, messages := chat.messages ++ [message] })

/-- removeChatMessage (chat/index.ts, lines 123-136). -/
def removeChatMessage (chat : Chat) (messageId : String) (now : Timestamp) :
    Bool × Chat :=
  let remaining := chat.messages.filter (fun m => m.messageId ≠ messageId)
  if remaining.length ≠ chat.messages.length then
    (true, { chat with messages := remaining, updatedAt := now })
  else (false, chat)

/-- Helper applying an update to the first message matching an id. -/
def updateFirstMessage (messageId : String) (f : Message → Message) :
    List Message → Option (List Message)
  | [] => none
  | m :: ms =>
      if m.messageId = messageId then some (f m :: ms)
      else (updateFirstMessage messageId f ms).map (fun ms2 => m :: ms2)

/-- setChatMessageLike (chat/index.ts, lines 138-154). -/
def setChatMessageLike (chat : Chat) (messageId userId : String)
    (likeType : LikeType) (now : Timestamp) : Bool × Chat :=
  match updateFirstMessage messageId
      (fun m => { m with
          likes := m.likes.filter (fun l => l.1 ≠ userId) ++ [(userId, likeType)]
          updatedAt := now }) chat.messages with
  | some ms => (true, { chat with messages := ms, updatedAt := now })
  | none => (false, chat)

/-- removeChatMessageLike (chat/index.ts, lines 156-173): success (and
timestamp bumps) only when the user actually had a like on the message. -/
def removeChatMessageLike (chat : Chat) (messageId userId : String)
    (now : Timestamp) : Bool × Chat :=
  match chat.messages.find? (fun m => m.messageId = messageId) with
  | none => (false, chat)
  | some m0 =>
      let remaining := m0.likes.filter (fun l => l.1 ≠ userId)
      if remaining.length ≠ m0.likes.length then
        match updateFirstMessage messageId
            (fun m => { m with
                likes := m.likes.filter (fun l => l.1 ≠ userId)
                updatedAt := now }) chat.messages with
        | some ms => (true, { chat with messages := ms, updatedAt := now })
        | none => (false, chat)
      else (false, chat)

/-- addChatParticipants (chat/index.ts, lines 84-97): append the genuinely
new ids, returning them. -/
def addChatParticipants (chat : Chat) (participantsIds : List String)
    (now : Timestamp) : List String × Chat :=
  let newParticipants := participantsIds.filter (fun id => !(chat.participants.contains id))
  if 0 < newParticipants.length then
    (newParticipants,
     { chat with participants := chat.participants ++ newParticipants
                 updatedAt := now })
  else (newParticipants, chat)

/-- ChatAgent.initChat (chat/index.ts, lines 240-271): fails when already
initialized or when the de-duplicated participant set including the creator
has fewer than 2 members (in both cases without touching the state);
otherwise stores the de-duplicated participants and emits the `addChat`
triggers of `executeAddChat`. -/
def ChatAgent.initChat (state : Option Chat) (chatId : String)
    (participantsIds : List String) (createdBy : String)
    (createdAt : Timestamp) :
    Result Unit String × Option Chat × List ChatNotification :=
  match state with
  | some c => (.err "Chat already exists", some c, [])
  | none =>
      let uniqueParticipants := jsSetInsert (jsSetOfList participantsIds) createdBy
      if uniqueParticipants.length < 2 then
        (.err "Chat must have at least 2 participants", none, [])
      else
        let chat : Chat :=
          { chatId := chatId, createdBy := createdBy
            participants := uniqueParticipants, messages := []
            createdAt := createdAt, updatedAt := createdAt }
        (.ok (), some chat,
         executeAddChat chatId createdBy createdAt uniqueParticipants)

/-- ChatAgent.addParticipants (chat/index.ts, lines 275-307). -/
def ChatAgent.addParticipants (state : Option Chat)
    (participantsIds : List String) (now : Timestamp) :
    Result Unit String × Option Chat × List ChatNotification :=
  match state with
  | none => (.err "Chat not exists", none, [])
  | some chat =>
      let oldParticipants := chat.participants
      let r := addChatParticipants chat participantsIds now
      if r.1.length = 0 then (.err "No new participants", some r.2, [])
      else
        (.ok (), some r.2,
         executeAddChat r.2.chatId r.2.createdBy r.2.updatedAt r.1 ++
           executeChatUpdates r.2.chatId oldParticipants r.2.updatedAt)

/-- ChatAgent.addMessage (chat/index.ts, lines 311-334). -/
def ChatAgent.addMessage (state : Option Chat) (userId content messageId : String)
    (now : Timestamp) : Result String String × Option Chat × List ChatNotification :=
  match state with
  | none => (.err "Chat not exists", none, [])
  | some chat =>
      match addChatMessage chat userId content messageId now with
      | (.ok m, chat2) =>
          (.ok m.messageId, some chat2,
           executeChatUpdates chat2.chatId chat2.participants chat2.updatedAt)
      | (.err e, chat2) => (.err e, some chat2, [])

/-- ChatAgent.removeMessage (chat/index.ts, lines 338-353). -/
def ChatAgent.removeMessage (state : Option Chat) (messageId : String)
    (now : Timestamp) : Result Unit String × Option Chat × List ChatNotification :=
  match state with
  | none => (.err "Chat not exists", none, [])
  | some chat =>
      let r := removeChatMessage chat messageId now
      if r.1 then
        (.ok (), some r.2, executeChatUpdates r.2.chatId r.2.participants r.2.updatedAt)
      else (.err "Message not found", some r.2, [])

/-- ChatAgent.setMessageLike (chat/index.ts, lines 357-384). -/
def ChatAgent.setMessageLike (state : Option Chat) (messageId userId : String)
    (likeType : LikeType) (now : Timestamp) :
    Result Unit String × Option Chat × List ChatNotification :=
  match state with
  | none => (.err "Chat not exists", none, [])
  | some chat =>
      let r := setChatMessageLike chat messageId userId likeType now
      if r.1 then
        (.ok (), some r.2, executeChatUpdates r.2.chatId r.2.participants r.2.updatedAt)
      else (.err "Message not found", some r.2, [])

/-- ChatAgent.removeMessageLike (chat/index.ts, lines 388-413). -/
def ChatAgent.removeMessageLike (state : Option Chat) (messageId userId : String)
    (now : Timestamp) : Result Unit String × Option Chat × List ChatNotification :=
  match state with
  | none => (.err "Chat not exists", none, [])
  | some chat =>
      let r := removeChatMessageLike chat messageId userId now
      if r.1 then
        (.ok (), some r.2, executeChatUpdates r.2.chatId r.2.participants r.2.updatedAt)
      else (.err "Message not found", some r.2, [])

/-- ChatAgent.getChat (chat/index.ts, lines 228-230). -/
def ChatAgent.getChat (state : Option Chat) : Option Chat := state

/-! Post actor commands (post/index.ts, `PostAgent`). -/

/-- PostAgent.getPost (post/index.ts, lines 369-371). -/
def PostAgent.getPost (state : Option Post) : Option Post := state

/-- PostAgent.setLike (post/index.ts, lines 408-419). -/
def PostAgent.setLike (state : Option Post) (userId : String)
    (likeType : LikeType) (now : Timestamp) : Result Unit String × Option Post :=
  match state with
  | none => (.err "Post not exists", none)
  | some p => (.ok (), some (setPostLike p userId likeType now))

/-- PostAgent.removeLike (post/index.ts, lines 423-431). -/
def PostAgent.removeLike (state : Option Post) (userId : String)
    (now : Timestamp) : Result Unit String × Option Post :=
  match state with
  | none => (.err "Post not exists", none)
  | some p =>
      let r := removePostLike p userId now
      (r.1, some r.2)

/-- PostAgent.addComment (post/index.ts, lines 435-453). -/
def PostAgent.addComment (state : Option Post) (userId content : String)
    (parentCommentId : Option String) (commentId : String) (now : Timestamp) :
    Result String String × Option Post :=
  match state with
  | none => (.err "Post not exists", none)
  | some p =>
      let r := addPostComment p userId content parentCommentId commentId now
      (r.1, some r.2)

/-- PostAgent.removeComment (post/index.ts, lines 457-465). -/
def PostAgent.removeComment (state : Option Post) (commentId : String)
    (now : Timestamp) : Result Unit String × Option Post :=
  match state with
  | none => (.err "Post not exists", none)
  | some p =>
      let r := removePostComment p commentId now
      (r.1, some r.2)

/-- PostAgent.setCommentLike (post/index.ts, lines 469-489). -/
def PostAgent.setCommentLike (state : Option Post) (commentId userId : String)
    (likeType : LikeType) (now : Timestamp) : Result Unit String × Option Post :=
  match state with
  | none => (.err "Post not exists", none)
  | some p =>
      let r := setPostCommentLike p commentId userId likeType now
      (r.1, some r.2)

/-- PostAgent.removeCommentLike (post/index.ts, lines 493-511). -/
def PostAgent.removeCommentLike (state : Option Post) (commentId userId : String)
    (now : Timestamp) : Result Unit String × Option Post :=
  match state with
  | none => (.err "Post not exists", none)
  | some p =>
      let r := removePostCommentLike p commentId userId now
      (r.1, some r.2)

/-! User actor (user/index.ts, `UserAgent`). -/

/-- A reciprocal trigger emitted by `connectUser`: the target user id, the
source user id, and the opposite connection type. -/
structure UserTrigger where
  target : String
  source : String
  connectionType : UserConnectionType
deriving Repr, DecidableEq

/-- The first connection record matching a user id
(`state.connectedUsers.findIndex(u => u[0] === userId)`). -/
def findConnection (l : List (String × ConnectedUser)) (userId : String) :
    Option ConnectedUser :=
  (l.find? (fun u => u.1 = userId)).map Prod.snd

/-- Push a connection type onto the first record matching a user id. -/
def pushConnectionType (userId : String) (ct : UserConnectionType)
    (now : Timestamp) : List (String × ConnectedUser) → List (String × ConnectedUser)
  | [] => []
  | (k, cu) :: rest =>
      if k = userId then
        (k, { cu with connectionTypes := cu.connectionTypes ++ [ct]
                      updatedAt := now }) :: rest
      else (k, cu) :: pushConnectionType userId ct now rest

/-- UserAgent.connectUser (user/index.ts, lines 93-126): self-connections
are accepted but ignored; when the connection type is already present the
call is a no-op; otherwise the type is recorded (creating the record when
needed) and a reciprocal trigger with the opposite type is emitted. -/
def connectUser (state : User) (userId : String) (ct : UserConnectionType)
    (now : Timestamp) : Result Unit String × User × List UserTrigger :=
  if userId = state.userId then (.ok (), state, [])
  else
    let existing := findConnection state.connectedUsers userId
    let shouldConnect :=
      match existing with
      | none => true
      | some cu => decide (ct ∉ cu.connectionTypes)
    if shouldConnect then
      let cus :=
        match existing with
        | some _ => pushConnectionType userId ct now state.connectedUsers
        | none => state.connectedUsers ++
            [(userId, { userId := userId, connectionTypes := [ct]
                        createdAt := now, updatedAt := now })]
      (.ok (), { state with connectedUsers := cus, updatedAt := now },
       [{ target := userId, source := state.userId
          connectionType := getOppositeConnectionType ct }])
    else (.ok (), state, [])

/-- Declarative splitter at space characters, keeping empty segments
(the spec-side description of the tokenizer on quote-free input, used to
characterize `tokenize`). -/
def spaceSplit : List Char → List (List Char)
  | [] => [[]]
  | c :: cs =>
      if c = ' ' then [] :: spaceSplit cs
      else
        match spaceSplit cs with
        | [] => [[c]]
        | t :: ts => (c :: t) :: ts

/-- Prepending an accumulator onto the first segment of a split. -/
def prependFirst (cur : List Char) : List (List Char) → List (List Char)
  | [] => [cur]
  | s :: ss => (cur ++ s) :: ss

/-! Theorems. -/

/-- Strict timestamp comparison is irreflexive. -/
theorem tsLt_self_false (t : Timestamp) : tsLt t t = false := by
  simp [tsLt]

/-- C4: for every initialized registry state and every timestamp `since`,
`getUpdates(since)` returns exactly the refs with `updatedAt` strictly
greater than `since` (an entry with `updatedAt` equal to `since` is
excluded) together with the owner id, and it returns null exactly when the
registry was never initialized.  Stated for the timeline registry and the
chat registry. -/
theorem getUpdates_strict_since_spec :
    ∀ (since : Timestamp),
      (∀ st : Option UserTimeline, getTimelineUpdates st since = none ↔ st = none) ∧
      (∀ tl : UserTimeline, ∃ u : UserTimelineUpdates,
        getTimelineUpdates (some tl) since = some u ∧
        u.userId = tl.userId ∧
        (∀ r : PostRef, r ∈ u.posts ↔ r ∈ tl.posts ∧ tsLt since r.updatedAt = true) ∧
        (∀ r ∈ tl.posts, r.updatedAt = since → r ∉ u.posts)) ∧
      (∀ st : Option UserChats, getChatUpdates st since = none ↔ st = none) ∧
      (∀ cs : UserChats, ∃ u : UserChatsUpdates,
        getChatUpdates (some cs) since = some u ∧
        u.userId = cs.userId ∧
        (∀ r : ChatRef, r ∈ u.chats ↔ r ∈ cs.chats ∧ tsLt since r.updatedAt = true) ∧
        (∀ r ∈ cs.chats, r.updatedAt = since → r ∉ u.chats)) := by
  intro since
  refine ⟨fun st => ?_, fun tl => ?_, fun st => ?_, fun cs => ?_⟩
  · cases st <;> simp [getTimelineUpdates]
  · refine ⟨_, rfl, rfl, fun r => by simp [List.mem_filter], fun r hr heq => ?_⟩
    simp [List.mem_filter, hr, heq, tsLt_self_false]
  · cases st <;> simp [getChatUpdates]
  · refine ⟨_, rfl, rfl, fun r => by simp [List.mem_filter], fun r hr heq => ?_⟩
    simp [List.mem_filter, hr, heq, tsLt_self_false]

/-- Witness for C4 at a concrete registry state. -/
theorem getUpdates_strict_since_witness :
    let t1 : Timestamp := ⟨"2024-01-01"⟩
    let t2 : Timestamp := ⟨"2024-01-02"⟩
    let r : PostRef := ⟨"p", "u", none, t1, t1⟩
    let tl : UserTimeline := ⟨"u", [r], t1, t2⟩
    ∃ u : UserTimelineUpdates,
      getTimelineUpdates (some tl) t1 = some u ∧
      u.userId = tl.userId ∧
      (∀ x : PostRef, x ∈ u.posts ↔ x ∈ tl.posts ∧ tsLt t1 x.updatedAt = true) ∧
      (∀ x ∈ tl.posts, x.updatedAt = t1 → x ∉ u.posts) := by
  intro t1 t2 r tl
  exact ((getUpdates_strict_since_spec t1).2.1 tl)

/-- C8: `removeComment(id)` removes exactly the comment whose id matches and
every comment whose `parentCommentId` equals `id`; any other comment —
including grandchildren of a removed comment — stays; when nothing matched
the command fails with the not-found error and the post is unchanged. -/
theorem removeComment_spec :
    ∀ (post : Post) (commentId : String) (now : Timestamp),
      (∀ c : String × Comment,
        c ∈ (removePostComment post commentId now).2.comments ↔
          c ∈ post.comments ∧ c.1 ≠ commentId ∧ c.2.parentCommentId ≠ some commentId) ∧
      ((removePostComment post commentId now).1 = Result.err "Comment not found" ↔
        ∀ c ∈ post.comments, c.1 ≠ commentId ∧ c.2.parentCommentId ≠ some commentId) ∧
      ((∀ c ∈ post.comments, c.1 ≠ commentId ∧ c.2.parentCommentId ≠ some commentId) →
        removePostComment post commentId now = (Result.err "Comment not found", post)) := by
  intro post commentId now
  by_cases h : (post.comments.filter (fun c =>
      decide (c.1 ≠ commentId ∧ c.2.parentCommentId ≠ some commentId))).length =
      post.comments.length
  · have hall : ∀ c ∈ post.comments,
        c.1 ≠ commentId ∧ c.2.parentCommentId ≠ some commentId := by
      intro c hc
      exact of_decide_eq_true (List.filter_length_eq_length.mp h c hc)
    have hres : removePostComment post commentId now =
        (Result.err "Comment not found", post) := by
      simp only [removePostComment]
      rw [if_neg (not_not_intro h)]
    refine ⟨?_, ?_, fun _ => hres⟩
    · intro c
      rw [hres]
      exact ⟨fun hc => ⟨hc, hall c hc⟩, fun hc => hc.1⟩
    · rw [hres]
      exact iff_of_true rfl hall
  · have hres : removePostComment post commentId now =
        (Result.ok (),
         { post with
             comments := post.comments.filter (fun c =>
               decide (c.1 ≠ commentId ∧ c.2.parentCommentId ≠ some commentId))
             updatedAt := now }) := by
      simp only [removePostComment]
      rw [if_pos h]
    refine ⟨?_, ?_, ?_⟩
    · intro c
      rw [hres]
      simp [List.mem_filter]
    · rw [hres]
      constructor
      · intro hc
        exact Result.noConfusion hc
      · intro hall2
        exact absurd (List.filter_length_eq_length.mpr
          (fun c hc => decide_eq_true (hall2 c hc))) h
    · intro hall2
      exact absurd (List.filter_length_eq_length.mpr
        (fun c hc => decide_eq_true (hall2 c hc))) h

/-- Witness for C8 at a concrete post: removing comment `c1` removes it and
its direct child `c2` but keeps the grandchild `c3` (whose parent reference
now dangles), while removing an unknown id fails and leaves the post
unchanged. -/
theorem removeComment_witness :
    let t : Timestamp := ⟨"t"⟩
    let c1 : Comment := ⟨"c1", none, "top", [], "u", t, t⟩
    let c2 : Comment := ⟨"c2", some "c1", "child", [], "u", t, t⟩
    let c3 : Comment := ⟨"c3", some "c2", "grandchild", [], "u", t, t⟩
    let post : Post := ⟨"p", "x", "u", [], [("c1", c1), ("c2", c2), ("c3", c3)], t, t⟩
    (("c3", c3) ∈ (removePostComment post "c1" t).2.comments ∧
     ("c1", c1) ∉ (removePostComment post "c1" t).2.comments ∧
     ("c2", c2) ∉ (removePostComment post "c1" t).2.comments) ∧
    removePostComment post "zzz" t = (Result.err "Comment not found", post) := by
  intro t c1 c2 c3 post
  refine ⟨⟨?_, ?_, ?_⟩, ?_⟩
  · exact ((removeComment_spec post "c1" t).1 ("c3", c3)).mpr (by decide)
  · intro hmem
    have := ((removeComment_spec post "c1" t).1 ("c1", c1)).mp hmem
    simp at this
  · intro hmem
    have := ((removeComment_spec post "c1" t).1 ("c2", c2)).mp hmem
    simp at this
  · exact (removeComment_spec post "zzz" t).2.2 (by decide)

/-- C6: on an initialized chat with fewer than 2000 messages, `addMessage`
succeeds and appends exactly one message (notifying all participants); on a
chat already holding 2000 messages it fails with the limit error and the
chat state is exactly unchanged. -/
theorem addMessage_cap_spec :
    ∀ (chat : Chat) (userId content messageId : String) (now : Timestamp),
      (chat.messages.length < MAX_CHAT_LENGTH →
        ∃ m : Message,
          ChatAgent.addMessage (some chat) userId content messageId now =
            (Result.ok messageId,
             some { chat with updatedAt := now, messages := chat.messages ++ [m] },
             executeChatUpdates chat.chatId chat.participants now)) ∧
      (chat.messages.length = MAX_CHAT_LENGTH →
        ChatAgent.addMessage (some chat) userId content messageId now =
          (Result.err "Max chat length", some chat, [])) := by
  intro chat userId content messageId now
  constructor
  · intro hlt
    have hcond : ¬ (MAX_CHAT_LENGTH ≤ chat.messages.length) := by omega
    refine ⟨{ messageId := messageId, content := content, likes := []
              createdBy := userId, createdAt := now, updatedAt := now }, ?_⟩
    simp [ChatAgent.addMessage, addChatMessage, hcond]
  · intro heq
    have hcond : MAX_CHAT_LENGTH ≤ chat.messages.length := le_of_eq heq.symm
    simp [ChatAgent.addMessage, addChatMessage, hcond]

/-- Witness for C6: a chat with one message accepts a new message; a chat
with 2000 messages rejects it, unchanged. -/
theorem addMessage_cap_witness :
    let t : Timestamp := ⟨"t"⟩
    let m0 : Message := ⟨"m0", "hello", [], "u", t, t⟩
    let small : Chat := ⟨"c", "u", ["u", "v"], [m0], t, t⟩
    let full : Chat := ⟨"c", "u", ["u", "v"], List.replicate 2000 m0, t, t⟩
    (∃ m : Message,
      ChatAgent.addMessage (some small) "v" "hi" "m1" t =
        (Result.ok "m1",
         some { small with updatedAt := t, messages := small.messages ++ [m] },
         executeChatUpdates small.chatId small.participants t)) ∧
    ChatAgent.addMessage (some full) "v" "hi" "m1" t =
      (Result.err "Max chat length", some full, []) := by
  intro t m0 small full
  constructor
  · exact (addMessage_cap_spec small "v" "hi" "m1" t).1 (by decide)
  · refine (addMessage_cap_spec full "v" "hi" "m1" t).2 ?_
    show (List.replicate 2000 m0).length = MAX_CHAT_LENGTH
    rw [List.length_replicate]
    rfl

/-- C10: every mutation command other than initialization, applied to a
post or chat actor that was never initialized, returns an error, leaves the
state uninitialized (the getter still returns null), and emits no
notification. -/
theorem uninitialized_commands_spec :
    ∀ (userId content messageId commentId : String) (parent : Option String)
      (lt : LikeType) (now : Timestamp) (pids : List String),
      PostAgent.getPost none = none ∧
      PostAgent.setLike none userId lt now = (.err "Post not exists", none) ∧
      PostAgent.removeLike none userId now = (.err "Post not exists", none) ∧
      PostAgent.addComment none userId content parent commentId now =
        (.err "Post not exists", none) ∧
      PostAgent.removeComment none commentId now = (.err "Post not exists", none) ∧
      PostAgent.setCommentLike none commentId userId lt now =
        (.err "Post not exists", none) ∧
      PostAgent.removeCommentLike none commentId userId now =
        (.err "Post not exists", none) ∧
      ChatAgent.getChat none = none ∧
      ChatAgent.addParticipants none pids now = (.err "Chat not exists", none, []) ∧
      ChatAgent.addMessage none userId content messageId now =
        (.err "Chat not exists", none, []) ∧
      ChatAgent.removeMessage none messageId now = (.err "Chat not exists", none, []) ∧
      ChatAgent.setMessageLike none messageId userId lt now =
        (.err "Chat not exists", none, []) ∧
      ChatAgent.removeMessageLike none messageId userId now =
        (.err "Chat not exists", none, []) := by
  intro userId content messageId commentId parent lt now pids
  exact ⟨rfl, rfl, rfl, rfl, rfl, rfl, rfl, rfl, rfl, rfl, rfl, rfl, rfl⟩

/-- C2 counterexample: with one pending update and a missing author, the
drain leaves the update in the queue (it is not dropped), and a later drain
with the author present redistributes it — both contrary to the claim. -/
theorem fanout_missing_author_counterexample :
    (executePostsUpdates
        { userId := "alice"
          updates := [{ postId := "p1", createdAt := ⟨"t1"⟩, updatedAt := ⟨"t1"⟩ }]
          createdAt := ⟨"t0"⟩, updatedAt := ⟨"t0"⟩ }
        none ⟨"t2"⟩).1.updates =
      [{ postId := "p1", createdAt := ⟨"t1"⟩, updatedAt := ⟨"t1"⟩ }] ∧
    (executePostsUpdates
        { userId := "alice"
          updates := [{ postId := "p1", createdAt := ⟨"t1"⟩, updatedAt := ⟨"t1"⟩ }]
          createdAt := ⟨"t0"⟩, updatedAt := ⟨"t0"⟩ }
        (some { userId := "alice", name := none, email := none
                connectedUsers := [], createdAt := ⟨"t0"⟩, updatedAt := ⟨"t0"⟩ })
        ⟨"t3"⟩).2 =
      [{ target := "alice"
         refs := [{ postId := "p1", createdBy := "alice"
                    createdByConnectionType := none
                    createdAt := ⟨"t1"⟩, updatedAt := ⟨"t1"⟩ }] }] := by
  exact ⟨by decide, by decide⟩

/-- C2 (amended): when the pending queue is non-empty and the author record
is missing, the drain sends no Timeline Registry notifications but leaves
the queue untouched (the batch is retained, not dropped); a later drain
executed when the author exists clears the queue and sends a notification
to the author containing a ref for every retained update. -/
theorem fanout_missing_author_spec :
    ∀ (st : PostUpdates) (now : Timestamp),
      executePostsUpdates st none now = (st, []) ∧
      (∀ (u : User) (now2 : Timestamp),
        (executePostsUpdates st (some u) now2).1.updates = [] ∧
        (∀ p ∈ st.updates,
          ∃ notif ∈ (executePostsUpdates st (some u) now2).2,
            notif.target = st.userId ∧
            ∃ r ∈ notif.refs,
              r.postId = p.postId ∧ r.createdAt = p.createdAt ∧
              r.updatedAt = p.updatedAt)) := by
  intro st now
  by_cases hemp : st.updates = []
  · refine ⟨by simp [executePostsUpdates, hemp], fun u now2 => ⟨?_, ?_⟩⟩
    · simp [executePostsUpdates, hemp]
    · intro p hp
      rw [hemp] at hp
      cases hp
  · refine ⟨by simp [executePostsUpdates, hemp], fun u now2 => ⟨?_, ?_⟩⟩
    · simp [executePostsUpdates, hemp]
    · intro p hp
      refine ⟨{ target := st.userId
                refs := st.updates.map (fun up =>
                  { postId := up.postId, createdBy := st.userId
                    createdByConnectionType := none
                    createdAt := up.createdAt, updatedAt := up.updatedAt }) },
              ?_, rfl, ?_⟩
      · simp [executePostsUpdates, hemp]
      · exact ⟨_, List.mem_map_of_mem _ hp, rfl, rfl, rfl⟩

/-- Witness for C2 at a concrete queue state. -/
theorem fanout_missing_author_witness :
    let st : PostUpdates :=
      { userId := "bob"
        updates := [{ postId := "p9", createdAt := ⟨"t1"⟩, updatedAt := ⟨"t2"⟩ }]
        createdAt := ⟨"t0"⟩, updatedAt := ⟨"t0"⟩ }
    let u : User :=
      { userId := "bob", name := none, email := none, connectedUsers := []
        createdAt := ⟨"t0"⟩, updatedAt := ⟨"t0"⟩ }
    executePostsUpdates st none ⟨"t3"⟩ = (st, []) ∧
    (executePostsUpdates st (some u) ⟨"t3"⟩).1.updates = [] ∧
    (∀ p ∈ st.updates,
      ∃ notif ∈ (executePostsUpdates st (some u) ⟨"t3"⟩).2,
        notif.target = st.userId ∧
        ∃ r ∈ notif.refs,
          r.postId = p.postId ∧ r.createdAt = p.createdAt ∧
          r.updatedAt = p.updatedAt) := by
  intro st u
  exact ⟨(fanout_missing_author_spec st ⟨"t3"⟩).1,
         ((fanout_missing_author_spec st ⟨"t3"⟩).2 u ⟨"t3"⟩).1,
         ((fanout_missing_author_spec st ⟨"t3"⟩).2 u ⟨"t3"⟩).2⟩

/-- Membership in a JS-set insertion step. -/
theorem mem_jsSetInsert (l : List String) (x y : String) :
    y ∈ jsSetInsert l x ↔ y ∈ l ∨ y = x := by
  by_cases h : x ∈ l
  · simp only [jsSetInsert, if_pos h]
    constructor
    · exact Or.inl
    · intro hy
      cases hy with
      | inl hy => exact hy
      | inr hy => exact hy ▸ h
  · simp [jsSetInsert, if_neg h]

/-- Nodup is preserved by a JS-set insertion step. -/
theorem nodup_jsSetInsert (l : List String) (x : String) (h : l.Nodup) :
    (jsSetInsert l x).Nodup := by
  by_cases hx : x ∈ l
  · simpa [jsSetInsert, if_pos hx] using h
  · simp only [jsSetInsert, if_neg hx]
    refine List.Nodup.append h (List.nodup_singleton x) ?_
    intro a ha hax
    rw [List.mem_singleton] at hax
    subst hax
    exact hx ha

/-- Membership in the JS-set built from a list. -/
theorem mem_jsSetOfList (xs : List String) (y : String) :
    y ∈ jsSetOfList xs ↔ y ∈ xs := by
  have key : ∀ (xs acc : List String),
      y ∈ xs.foldl jsSetInsert acc ↔ y ∈ acc ∨ y ∈ xs := by
    intro xs
    induction xs with
    | nil => simp
    | cons x rest ih =>
        intro acc
        rw [List.foldl_cons, ih (jsSetInsert acc x), mem_jsSetInsert]
        simp only [List.mem_cons]
        tauto
  simpa using key xs []

/-- The JS-set built from a list has no duplicates. -/
theorem nodup_jsSetOfList (xs : List String) : (jsSetOfList xs).Nodup := by
  have key : ∀ (xs acc : List String), acc.Nodup → (xs.foldl jsSetInsert acc).Nodup := by
    intro xs
    induction xs with
    | nil => exact fun acc h => h
    | cons x rest ih =>
        intro acc hacc
        rw [List.foldl_cons]
        exact ih (jsSetInsert acc x) (nodup_jsSetInsert acc x hacc)
  exact key xs [] List.nodup_nil

/-- C5 counterexample: initializing a chat with participants `["u1"]` and
creator `"u2"` stores both participants but emits a single `addChat`
notification addressed to `"u1"` only — the creator receives no `addChat`
and no participant receives a chat-updated notification, contrary to the
claim. -/
theorem chat_init_counterexample :
    (ChatAgent.initChat none "c1" ["u1"] "u2" ⟨"t0"⟩).2.1 =
      some { chatId := "c1", createdBy := "u2", participants := ["u1", "u2"]
             messages := [], createdAt := ⟨"t0"⟩, updatedAt := ⟨"t0"⟩ } ∧
    (ChatAgent.initChat none "c1" ["u1"] "u2" ⟨"t0"⟩).2.2 =
      [ChatNotification.addChat "u1" "c1" "u2" ⟨"t0"⟩] := by
  exact ⟨by decide, by decide⟩

/-- C5 (amended): `initialize` fails when already initialized and when the
de-duplicated participant set including the creator has fewer than 2
members (leaving the actor uninitialized); on success the stored
participant set is that de-duplicated set, and an `addChat` notification is
sent to every participant other than the creator; no chat-updated
notification is sent during initialization. -/
theorem chat_init_spec :
    ∀ (chatId : String) (pids : List String) (createdBy : String) (t : Timestamp),
      (∀ c : Chat, ChatAgent.initChat (some c) chatId pids createdBy t =
        (.err "Chat already exists", some c, [])) ∧
      ((jsSetInsert (jsSetOfList pids) createdBy).length < 2 →
        ChatAgent.initChat none chatId pids createdBy t =
          (.err "Chat must have at least 2 participants", none, [])) ∧
      (2 ≤ (jsSetInsert (jsSetOfList pids) createdBy).length →
        ∃ chat : Chat,
          (ChatAgent.initChat none chatId pids createdBy t).1 = .ok () ∧
          (ChatAgent.initChat none chatId pids createdBy t).2.1 = some chat ∧
          chat.participants.Nodup ∧
          (∀ p : String, p ∈ chat.participants ↔ p ∈ pids ∨ p = createdBy) ∧
          (∀ p : String,
            ChatNotification.addChat p chatId createdBy t ∈
                (ChatAgent.initChat none chatId pids createdBy t).2.2 ↔
              p ∈ chat.participants ∧ p ≠ createdBy) ∧
          (∀ n ∈ (ChatAgent.initChat none chatId pids createdBy t).2.2,
            n.isChatUpdated = false)) := by
  intro chatId pids createdBy t
  refine ⟨fun c => rfl, fun hlt => ?_, fun hge => ?_⟩
  · simp [ChatAgent.initChat, hlt]
  · have hcond : ¬ ((jsSetInsert (jsSetOfList pids) createdBy).length < 2) := by omega
    refine ⟨{ chatId := chatId, createdBy := createdBy
              participants := jsSetInsert (jsSetOfList pids) createdBy
              messages := [], createdAt := t, updatedAt := t }, ?_, ?_, ?_, ?_, ?_, ?_⟩
    · simp [ChatAgent.initChat, hcond]
    · simp [ChatAgent.initChat, hcond]
    · exact nodup_jsSetInsert _ _ (nodup_jsSetOfList pids)
    · intro p
      rw [mem_jsSetInsert, mem_jsSetOfList]
    · intro p
      simp only [ChatAgent.initChat, hcond, if_false, executeAddChat]
      simp [List.mem_filter]
    · intro n hn
      simp only [ChatAgent.initChat, hcond, if_false, executeAddChat] at hn
      rcases List.mem_map.mp hn with ⟨p, _, hpn⟩
      rw [← hpn]
      rfl

/-- Witness for C5: a two-participant initialization succeeds with the
stated participant set and notifications; a one-participant initialization
fails; re-initialization fails. -/
theorem chat_init_witness :
    (∃ chat : Chat,
      (ChatAgent.initChat none "c7" ["a"] "b" ⟨"t"⟩).1 = .ok () ∧
      (ChatAgent.initChat none "c7" ["a"] "b" ⟨"t"⟩).2.1 = some chat ∧
      chat.participants.Nodup ∧
      (∀ p : String, p ∈ chat.participants ↔ p ∈ ["a"] ∨ p = "b") ∧
      (∀ p : String,
        ChatNotification.addChat p "c7" "b" ⟨"t"⟩ ∈
            (ChatAgent.initChat none "c7" ["a"] "b" ⟨"t"⟩).2.2 ↔
          p ∈ chat.participants ∧ p ≠ "b") ∧
      (∀ n ∈ (ChatAgent.initChat none "c7" ["a"] "b" ⟨"t"⟩).2.2,
        n.isChatUpdated = false)) ∧
    ChatAgent.initChat none "c8" ["b"] "b" ⟨"t"⟩ =
      (.err "Chat must have at least 2 participants", none, []) := by
  constructor
  · exact (chat_init_spec "c7" ["a"] "b" ⟨"t"⟩).2.2 (by decide)
  · exact (chat_init_spec "c8" ["b"] "b" ⟨"t"⟩).2.1 (by decide)

/-- Finding a connection appended at the end when no earlier record matches. -/
theorem findConnection_append_of_none (l : List (String × ConnectedUser))
    (b : String) (cu : ConnectedUser)
    (h : findConnection l b = none) :
    findConnection (l ++ [(b, cu)]) b = some cu := by
  have hfind : l.find? (fun u => u.1 = b) = none := by
    unfold findConnection at h
    cases hf : l.find? (fun u => u.1 = b) with
    | none => rfl
    | some x => rw [hf] at h; cases h
  unfold findConnection
  rw [List.find?_append, hfind]
  simp

/-- `pushConnectionType` rewrites exactly the first matching record, as seen
by `findConnection`. -/
theorem findConnection_pushConnectionType (l : List (String × ConnectedUser))
    (b : String) (k : UserConnectionType) (now : Timestamp) :
    findConnection (pushConnectionType b k now l) b =
      (findConnection l b).map (fun cu =>
        { cu with connectionTypes := cu.connectionTypes ++ [k], updatedAt := now }) := by
  induction l with
  | nil => rfl
  | cons hd tl ih =>
      by_cases hb : hd.1 = b
      · unfold pushConnectionType findConnection
        rw [if_pos hb]
        rw [List.find?_cons_of_pos _ (by simpa using hb),
            List.find?_cons_of_pos _ (by simpa using hb)]
        rfl
      · unfold pushConnectionType findConnection
        rw [if_neg hb]
        rw [List.find?_cons_of_neg _ (by simpa using hb),
            List.find?_cons_of_neg _ (by simpa using hb)]
        exact ih

/-- Evaluation of `connectUser` when no record for the target exists. -/
theorem connectUser_eval_new (s : User) (b : String) (k : UserConnectionType)
    (t : Timestamp) (hself : ¬ (b = s.userId))
    (hfe : findConnection s.connectedUsers b = none) :
    connectUser s b k t =
      (.ok (),
       { s with connectedUsers := s.connectedUsers ++
                  [(b, { userId := b, connectionTypes := [k]
                         createdAt := t, updatedAt := t })],
                updatedAt := t },
       [{ target := b, source := s.userId
          connectionType := getOppositeConnectionType k }]) := by
  simp [connectUser, hself, hfe]

/-- Evaluation of `connectUser` when the record exists and already contains
the connection type: a full no-op. -/
theorem connectUser_eval_mem (s : User) (b : String) (k : UserConnectionType)
    (t : Timestamp) (cu0 : ConnectedUser) (hself : ¬ (b = s.userId))
    (hfe : findConnection s.connectedUsers b = some cu0)
    (hk : k ∈ cu0.connectionTypes) :
    connectUser s b k t = (.ok (), s, []) := by
  simp [connectUser, hself, hfe, hk]

/-- Evaluation of `connectUser` when the record exists but lacks the
connection type. -/
theorem connectUser_eval_push (s : User) (b : String) (k : UserConnectionType)
    (t : Timestamp) (cu0 : ConnectedUser) (hself : ¬ (b = s.userId))
    (hfe : findConnection s.connectedUsers b = some cu0)
    (hk : k ∉ cu0.connectionTypes) :
    connectUser s b k t =
      (.ok (),
       { s with connectedUsers := pushConnectionType b k t s.connectedUsers,
                updatedAt := t },
       [{ target := b, source := s.userId
          connectionType := getOppositeConnectionType k }]) := by
  simp [connectUser, hself, hfe, hk]

/-- C7: `connectUser(B, K)` is idempotent — the second of two consecutive
calls changes nothing (same state, success result, no reciprocal trigger),
the connection-type list of the record for `B` stays duplicate-free, and
`connectUser(self, K)` is a successful no-op. -/
theorem connectUser_idem_spec :
    ∀ (s : User) (b : String) (k : UserConnectionType) (t1 t2 : Timestamp),
      (connectUser (connectUser s b k t1).2.1 b k t2).2.1 = (connectUser s b k t1).2.1 ∧
      (connectUser (connectUser s b k t1).2.1 b k t2).1 = Result.ok () ∧
      (connectUser (connectUser s b k t1).2.1 b k t2).2.2 = [] ∧
      ((∀ cu, findConnection s.connectedUsers b = some cu → cu.connectionTypes.Nodup) →
        ∀ cu, findConnection (connectUser s b k t1).2.1.connectedUsers b = some cu →
          cu.connectionTypes.Nodup) ∧
      connectUser s s.userId k t1 = (Result.ok (), s, []) := by
  intro s b k t1 t2
  have hselfcall : ∀ t : Timestamp, connectUser s s.userId k t = (Result.ok (), s, []) := by
    intro t
    simp [connectUser]
  by_cases hself : b = s.userId
  · subst hself
    have hs1 : (connectUser s s.userId k t1).2.1 = s := by rw [hselfcall t1]
    rw [hs1, hselfcall t2]
    exact ⟨rfl, rfl, rfl, fun h => h, hselfcall t1⟩
  · cases hfe : findConnection s.connectedUsers b with
    | none =>
        have h1 := connectUser_eval_new s b k t1 hself hfe
        have hs1 : (connectUser s b k t1).2.1 =
            { s with
                connectedUsers := s.connectedUsers ++
                  [(b, { userId := b, connectionTypes := [k],
                         createdAt := t1, updatedAt := t1 })],
                updatedAt := t1 } := by rw [h1]
        rw [hs1]
        have hfind2 : findConnection
            ({ s with
                connectedUsers := s.connectedUsers ++
                  [(b, { userId := b, connectionTypes := [k],
                         createdAt := t1, updatedAt := t1 })],
                updatedAt := t1 } : User).connectedUsers b =
            some { userId := b, connectionTypes := [k],
                   createdAt := t1, updatedAt := t1 } :=
          findConnection_append_of_none s.connectedUsers b _ hfe
        have h2 := connectUser_eval_mem
          { s with
              connectedUsers := s.connectedUsers ++
                [(b, { userId := b, connectionTypes := [k],
                       createdAt := t1, updatedAt := t1 })],
              updatedAt := t1 }
          b k t2
          { userId := b, connectionTypes := [k], createdAt := t1, updatedAt := t1 }
          hself hfind2 (by simp)
        rw [h2]
        refine ⟨rfl, rfl, rfl, ?_, hselfcall t1⟩
        intro h cu hcu
        rw [hfind2] at hcu
        cases hcu
        simp
    | some cu0 =>
        by_cases hk : k ∈ cu0.connectionTypes
        · have h1 := connectUser_eval_mem s b k t1 cu0 hself hfe hk
          have hs1 : (connectUser s b k t1).2.1 = s := by rw [h1]
          rw [hs1]
          have h2 := connectUser_eval_mem s b k t2 cu0 hself hfe hk
          rw [h2]
          refine ⟨rfl, rfl, rfl, ?_, hselfcall t1⟩
          intro h cu hcu
          rw [hfe] at hcu
          exact h cu hcu
        · have h1 := connectUser_eval_push s b k t1 cu0 hself hfe hk
          have hs1 : (connectUser s b k t1).2.1 =
              { s with
                  connectedUsers := pushConnectionType b k t1 s.connectedUsers,
                  updatedAt := t1 } := by rw [h1]
          rw [hs1]
          have hfind2 : findConnection
              ({ s with
                  connectedUsers := pushConnectionType b k t1 s.connectedUsers,
                  updatedAt := t1 } : User).connectedUsers b =
              some { cu0 with
                      connectionTypes := cu0.connectionTypes ++ [k],
                      updatedAt := t1 } := by
            show findConnection (pushConnectionType b k t1 s.connectedUsers) b = _
            rw [findConnection_pushConnectionType, hfe]
            rfl
          have h2 := connectUser_eval_mem
            { s with
                connectedUsers := pushConnectionType b k t1 s.connectedUsers,
                updatedAt := t1 }
            b k t2
            { cu0 with
                connectionTypes := cu0.connectionTypes ++ [k],
                updatedAt := t1 }
            hself hfind2 (by simp)
          rw [h2]
          refine ⟨rfl, rfl, rfl, ?_, hselfcall t1⟩
          intro h cu hcu
          rw [hfind2] at hcu
          cases hcu
          refine List.Nodup.append (h cu0 rfl) (List.nodup_singleton k) ?_
          intro a ha hax
          rw [List.mem_singleton] at hax
          subst hax
          exact hk ha

/-- Witness for C7 at a concrete user state. -/
theorem connectUser_idem_witness :
    let t : Timestamp := ⟨"t"⟩
    let s : User := ⟨"alice", none, none, [], t, t⟩
    (connectUser (connectUser s "bob" .Following t).2.1 "bob" .Following t).2.1 =
      (connectUser s "bob" .Following t).2.1 ∧
    ((∀ cu, findConnection s.connectedUsers "bob" = some cu → cu.connectionTypes.Nodup) →
      ∀ cu, findConnection (connectUser s "bob" .Following t).2.1.connectedUsers "bob" = some cu →
        cu.connectionTypes.Nodup) ∧
    connectUser s s.userId .Following t = (Result.ok (), s, []) := by
  intro t s
  exact ⟨(connectUser_idem_spec s "bob" .Following t t).1,
         (connectUser_idem_spec s "bob" .Following t t).2.2.2.1,
         (connectUser_idem_spec s "bob" .Following t t).2.2.2.2⟩

/-- Skipping lemma for the polling loop: while the fetches come back empty
and the deadline has not been reached, the loop advances one iteration at a
time, sleeping `iw` per iteration. -/
theorem pollLoop_skip {α : Type} (fetch : Nat → Option (List α)) (iw mw : Nat) :
    ∀ (n k fuel : Nat),
      (∀ j, j < n → fetch (k + j) = some [] ∧ (k + j) * iw < mw) →
      pollLoop fetch iw mw (n + fuel) k (k * iw) =
        pollLoop fetch iw mw fuel (k + n) ((k + n) * iw) := by
  intro n
  induction n with
  | zero => intro k fuel _; simp
  | succ m ih =>
      intro k fuel hpre
      have h0 : fetch k = some [] ∧ k * iw < mw := by
        have := hpre 0 (by omega)
        simpa using this
      have hsucc : m + 1 + fuel = (m + fuel) + 1 := by omega
      rw [hsucc]
      show pollLoop fetch iw mw ((m + fuel) + 1) k (k * iw) = _
      rw [pollLoop, h0.1]
      simp only [List.length_nil, lt_irrefl, if_false]
      rw [if_neg (by omega : ¬ mw ≤ k * iw)]
      have harg : k * iw + iw = (k + 1) * iw := by ring
      rw [harg]
      have hih := ih (k + 1) fuel (fun j hj => by
        have hx : k + 1 + j = k + (j + 1) := by omega
        rw [hx]
        exact hpre (j + 1) (by omega))
      rw [hih]
      have hx : k + 1 + m = k + (m + 1) := by omega
      rw [hx]

/-- C3: characterization of `pollForUpdates` under the instant-fetch clock
model (elapsed time at the post-fetch check of iteration `k` is
`k * iterWait`).  If the fetches of all iterations before `n` came back as
empty lists without reaching the deadline, then: a `none` (absent) fetch at
iteration `n` makes the whole poll return `none` immediately; a non-empty
list is returned as is; an empty list at or past the deadline yields the
empty list; and the outcome is insensitive to what the fetch function would
return after the terminating iteration (no further fetch calls). -/
theorem pollForUpdates_spec {α : Type} :
    ∀ (fetch fetch2 : Nat → Option (List α)) (iterWait maxWait n : Nat),
      0 < iterWait →
      (∀ j, j < n → fetch j = some [] ∧ j * iterWait < maxWait) →
      ((fetch n = none →
          pollForUpdates fetch (some iterWait) (some maxWait) = none) ∧
       (∀ l : List α, fetch n = some l → l ≠ [] →
          pollForUpdates fetch (some iterWait) (some maxWait) = some l) ∧
       (fetch n = some [] → maxWait ≤ n * iterWait →
          pollForUpdates fetch (some iterWait) (some maxWait) = some []) ∧
       ((∀ j, j ≤ n → fetch2 j = fetch j) →
        (fetch n = some [] → maxWait ≤ n * iterWait) →
          pollForUpdates fetch2 (some iterWait) (some maxWait) =
            pollForUpdates fetch (some iterWait) (some maxWait))) := by
  intro fetch fetch2 iw mw n hiw hpre
  have hn_le : n ≤ mw / iw + 1 := by
    cases n with
    | zero => exact Nat.zero_le _
    | succ m =>
        have hm := (hpre m (by omega)).2
        have hdiv : m ≤ mw / iw := (Nat.le_div_iff_mul_le hiw).mpr (le_of_lt hm)
        exact Nat.succ_le_succ hdiv
  have hsplit : mw / iw + 2 = n + (mw / iw + 2 - n) := by omega
  obtain ⟨f2, hf2⟩ : ∃ f2, mw / iw + 2 - n = f2 + 1 := ⟨mw / iw + 1 - n, by omega⟩
  have haux : ∀ (g : Nat → Option (List α)),
      (∀ j, j < n → g j = some [] ∧ j * iw < mw) →
      pollForUpdates g (some iw) (some mw) =
        pollLoop g iw mw (f2 + 1) n (n * iw) := by
    intro g hg
    have hskip := pollLoop_skip g iw mw n 0 (mw / iw + 2 - n)
      (fun j hj => by simpa using hg j hj)
    simp only [Nat.zero_mul, Nat.zero_add] at hskip
    show pollLoop g iw mw (mw / iw + 2) 0 0 = _
    rw [hsplit, hskip, hf2]
  refine ⟨?_, ?_, ?_, ?_⟩
  · intro hn
    rw [haux fetch hpre, pollLoop, hn]
  · intro l hn hne
    rw [haux fetch hpre, pollLoop, hn]
    have hlen : 0 < l.length := List.length_pos.mpr hne
    simp [hlen]
  · intro hn hto
    rw [haux fetch hpre, pollLoop, hn]
    simp [hto]
  · intro hagree hterm
    have hpre2 : ∀ j, j < n → fetch2 j = some [] ∧ j * iw < mw := fun j hj =>
      ⟨(hagree j (le_of_lt hj)).trans (hpre j hj).1, (hpre j hj).2⟩
    rw [haux fetch hpre, haux fetch2 hpre2, pollLoop, pollLoop,
        hagree n (le_refl n)]
    cases hn : fetch n with
    | none => rfl
    | some l =>
        cases l with
        | nil => simp [hterm hn]
        | cons a rest => simp

/-- Witness for C3: fetches return `[]` for iterations 0..2 and `[7]` at
iteration 3; with `iterWaitTime` 10 and `maxWaitTime` 1000 the poll returns
`[7]` (well before the deadline). -/
theorem pollForUpdates_spec_witness :
    pollForUpdates (fun j : Nat => if j < 3 then some ([] : List Nat) else some [7])
      (some 10) (some 1000) = some [7] :=
  (pollForUpdates_spec (fun j : Nat => if j < 3 then some ([] : List Nat) else some [7])
    (fun j : Nat => if j < 3 then some ([] : List Nat) else some [7])
    10 1000 3 (by decide) (by decide)).2.1 [7] (by decide) (by decide)

/-- Unfolding equation: a space outside quotes pushes the trimmed
accumulator when non-empty. -/
theorem tokenizeAux_cons_space (cs cur : List Char) :
    tokenizeAux (' ' :: cs) cur false =
      if cur = [] then tokenizeAux cs [] false
      else trimChars cur :: tokenizeAux cs [] false := by
  simp [tokenizeAux]

/-- Unfolding equation: a double quote toggles the quote flag. -/
theorem tokenizeAux_cons_quote (cs cur : List Char) (b : Bool) :
    tokenizeAux ('"' :: cs) cur b = tokenizeAux cs cur (!b) := by
  cases b <;> simp [tokenizeAux]

/-- Unfolding equation: an ordinary character is appended to the
accumulator. -/
theorem tokenizeAux_cons_other (c : Char) (cs cur : List Char)
    (hc : c ≠ ' ') (hq : c ≠ '"') :
    tokenizeAux (c :: cs) cur false = tokenizeAux cs (cur ++ [c]) false := by
  simp [tokenizeAux, hc, hq]

/-- Unfolding equation: inside quotes every non-quote character (spaces
included) is appended to the accumulator. -/
theorem tokenizeAux_cons_inq (c : Char) (cs cur : List Char) (hq : c ≠ '"') :
    tokenizeAux (c :: cs) cur true = tokenizeAux cs (cur ++ [c]) true := by
  simp [tokenizeAux, hq]

/-- Unfolding equation of the space split at a space. -/
theorem spaceSplit_cons_space (cs : List Char) :
    spaceSplit (' ' :: cs) = [] :: spaceSplit cs := by
  simp [spaceSplit]

/-- A space split never produces an empty list of segments. -/
theorem spaceSplit_ne_nil : ∀ cs : List Char, spaceSplit cs ≠ [] := by
  intro cs
  induction cs with
  | nil => simp [spaceSplit]
  | cons c cs ih =>
      by_cases hc : c = ' '
      · simp [spaceSplit, hc]
      · simp only [spaceSplit, if_neg hc]
        cases hsp : spaceSplit cs with
        | nil => simp
        | cons t ts => simp

/-- Unfolding equation of the space split at a non-space character. -/
theorem spaceSplit_cons_other (c : Char) (cs t : List Char)
    (ts : List (List Char)) (hc : c ≠ ' ') (hsp : spaceSplit cs = t :: ts) :
    spaceSplit (c :: cs) = (c :: t) :: ts := by
  simp [spaceSplit, hc, hsp]

/-- Prepending an empty accumulator onto a non-empty split is the identity. -/
theorem prependFirst_nil_of_ne (ss : List (List Char)) (h : ss ≠ []) :
    prependFirst [] ss = ss := by
  cases ss with
  | nil => exact absurd rfl h
  | cons s ss => simp [prependFirst]

/-- On quote-free input, the tokenizer machine computes the space split of
the remaining characters (with the accumulator prepended onto the first
segment), dropping empty segments and trimming each token. -/
theorem tokenizeAux_no_quote :
    ∀ (cs cur : List Char), (∀ c ∈ cs, c ≠ '"') →
      tokenizeAux cs cur false =
        ((prependFirst cur (spaceSplit cs)).filter
          (fun t => decide (t ≠ []))).map trimChars := by
  intro cs
  induction cs with
  | nil =>
      intro cur _
      by_cases hc : cur = []
      · simp [tokenizeAux, spaceSplit, prependFirst, hc]
      · simp [tokenizeAux, spaceSplit, prependFirst, hc]
  | cons c cs ih =>
      intro cur h
      have hq : c ≠ '"' := h c (List.mem_cons_self c cs)
      have hrest : ∀ x ∈ cs, x ≠ '"' := fun x hx => h x (List.mem_cons_of_mem c hx)
      by_cases hc : c = ' '
      · subst hc
        rw [tokenizeAux_cons_space, spaceSplit_cons_space]
        rw [show prependFirst cur ([] :: spaceSplit cs) = cur :: spaceSplit cs from by
          simp [prependFirst]]
        by_cases hcur : cur = []
        · rw [if_pos hcur, ih [] hrest,
              prependFirst_nil_of_ne _ (spaceSplit_ne_nil cs)]
          simp [List.filter_cons, hcur]
        · rw [if_neg hcur, ih [] hrest,
              prependFirst_nil_of_ne _ (spaceSplit_ne_nil cs)]
          simp [List.filter_cons, hcur]
      · obtain ⟨t, ts, hsp⟩ : ∃ t ts, spaceSplit cs = t :: ts := by
          cases hspx : spaceSplit cs with
          | nil => exact absurd hspx (spaceSplit_ne_nil cs)
          | cons t ts => exact ⟨t, ts, rfl⟩
        rw [tokenizeAux_cons_other c cs cur hc hq, ih (cur ++ [c]) hrest,
            spaceSplit_cons_other c cs t ts hc hsp, hsp]
        simp only [prependFirst]
        simp [List.append_assoc]

/-- Inside a quote region the machine accumulates every character up to the
closing quote without splitting, and the quotes themselves are dropped. -/
theorem tokenizeAux_quoted :
    ∀ (cs cur rest : List Char), (∀ c ∈ cs, c ≠ '"') →
      tokenizeAux (cs ++ '"' :: rest) cur true =
        tokenizeAux rest (cur ++ cs) false := by
  intro cs
  induction cs with
  | nil =>
      intro cur rest _
      rw [List.nil_append, tokenizeAux_cons_quote]
      simp
  | cons c cs ih =>
      intro cur rest h
      have hq : c ≠ '"' := h c (List.mem_cons_self c cs)
      have hrest : ∀ x ∈ cs, x ≠ '"' := fun x hx => h x (List.mem_cons_of_mem c hx)
      rw [List.cons_append, tokenizeAux_cons_inq c _ cur hq,
          ih (cur ++ [c]) rest hrest]
      simp [List.append_assoc]

/-- Unfolding equation: a leading colon splits immediately. -/
theorem splitAtFirstColon_cons_colon (cs : List Char) :
    splitAtFirstColon (':' :: cs) = some ([], cs) := by
  simp [splitAtFirstColon]

/-- Unfolding equation: a non-colon head is prepended to the field part. -/
theorem splitAtFirstColon_cons_other (c : Char) (cs : List Char) (hc : c ≠ ':') :
    splitAtFirstColon (c :: cs) =
      (splitAtFirstColon cs).map (fun p => (c :: p.1, p.2)) := by
  simp [splitAtFirstColon, hc]

/-- A token has no colon exactly when `splitAtFirstColon` finds nothing. -/
theorem splitAtFirstColon_none_iff :
    ∀ cs : List Char, splitAtFirstColon cs = none ↔ ':' ∉ cs := by
  intro cs
  induction cs with
  | nil => simp [splitAtFirstColon]
  | cons c cs ih =>
      by_cases hc : c = ':'
      · subst hc
        rw [splitAtFirstColon_cons_colon]
        simp
      · rw [splitAtFirstColon_cons_other c cs hc]
        rw [Option.map_eq_none', ih]
        simp [List.mem_cons, eq_comm, hc]

/-- Characterization of `splitAtFirstColon`: it yields the segments before
and after the first colon. -/
theorem splitAtFirstColon_some_iff :
    ∀ (cs f v : List Char),
      splitAtFirstColon cs = some (f, v) ↔ cs = f ++ ':' :: v ∧ ':' ∉ f := by
  intro cs
  induction cs with
  | nil =>
      intro f v
      constructor
      · intro h
        exact Option.noConfusion h
      · intro hfv
        exact absurd hfv.1 (by cases f <;> simp)
  | cons c cs ih =>
      intro f v
      by_cases hc : c = ':'
      · subst hc
        rw [splitAtFirstColon_cons_colon]
        constructor
        · intro h
          injection h with h2
          cases h2
          exact ⟨rfl, by simp⟩
        · intro hfv
          rcases hfv with ⟨heq, hnot⟩
          cases f with
          | nil =>
              rw [List.nil_append] at heq
              injection heq with _ h2
              rw [h2]
          | cons a f2 =>
              rw [List.cons_append] at heq
              injection heq with h1 _
              rw [← h1] at hnot
              exact absurd (List.mem_cons_self ':' f2) hnot
      · rw [splitAtFirstColon_cons_other c cs hc]
        constructor
        · intro h
          rcases Option.map_eq_some'.mp h with ⟨⟨f2, v2⟩, hsp, hfv⟩
          cases hfv
          rcases (ih f2 v2).mp hsp with ⟨heq, hnot⟩
          refine ⟨by simp [heq], ?_⟩
          intro hmem
          rcases List.mem_cons.mp hmem with h1 | h1
          · exact hc h1.symm
          · exact hnot h1
        · intro hfv
          rcases hfv with ⟨heq, hnot⟩
          cases f with
          | nil =>
              rw [List.nil_append] at heq
              injection heq with h1 _
              exact absurd h1 hc
          | cons a f2 =>
              rw [List.cons_append] at heq
              injection heq with h1 h2
              subst h1
              have hnot2 : ':' ∉ f2 := fun hx => hnot (List.mem_cons_of_mem c hx)
              rw [Option.map_eq_some']
              exact ⟨(f2, v), (ih f2 v).mpr ⟨h2, hnot2⟩, rfl⟩

/-- The `Query` constructor loop, characterized declaratively: tokens with a
colon become field filters (in order), tokens without become terms. -/
theorem parse_foldl :
    ∀ (toks ts : List String) (fs : List (String × String)),
      List.foldl parseTokenStep { terms := ts, fieldFilters := fs } toks =
        { terms := ts ++ toks.filter (fun t => decide (':' ∉ t.toList)),
          fieldFilters := fs ++ toks.filterMap (fun t =>
            (splitAtFirstColon t.toList).map (fun p =>
              (String.mk (p.1.map Char.toLower), String.mk p.2))) } := by
  intro toks
  induction toks with
  | nil => intro ts fs; simp
  | cons t rest ih =>
      intro ts fs
      rw [List.foldl_cons]
      cases hsp : splitAtFirstColon t.toList with
      | none =>
          have hsp2 : splitAtFirstColon t.data = none := hsp
          have hnotin : ':' ∉ t.data := (splitAtFirstColon_none_iff _).mp hsp
          have hstep : parseTokenStep { terms := ts, fieldFilters := fs } t =
              { terms := ts ++ [t], fieldFilters := fs } := by
            simp [parseTokenStep, String.toList, hsp2]
          rw [hstep, ih]
          simp [List.filter_cons, String.toList, hnotin, List.filterMap_cons,
                hsp2, List.append_assoc]
      | some p =>
          have hsp2 : splitAtFirstColon t.data = some p := hsp
          have hin : ':' ∈ t.data := by
            by_contra hno
            have hno2 : splitAtFirstColon t.data = none :=
              (splitAtFirstColon_none_iff _).mpr hno
            rw [hno2] at hsp2
            cases hsp2
          have hstep : parseTokenStep { terms := ts, fieldFilters := fs } t =
              { terms := ts
                fieldFilters := fs ++
                  [(String.mk (p.1.map Char.toLower), String.mk p.2)] } := by
            simp [parseTokenStep, String.toList, hsp2]
          rw [hstep, ih]
          simp [List.filter_cons, String.toList, hin, List.filterMap_cons,
                hsp2, List.append_assoc]

/-- C9 counterexample: the tokenizer splits on space characters only, not
on all whitespace — a tab does not split, so the query `a<TAB>b` stays one
token, while the claimed whitespace-splitting behavior would produce two. -/
theorem tokenize_whitespace_counterexample :
    tokenize "a\tb" = ["a\tb"] ∧ tokenizeSpecWhitespace "a\tb" = ["a", "b"] :=
  ⟨by decide, by decide⟩

/-- C9 (amended): parsing splits the query into tokens at unquoted space
characters only (other whitespace does not split; each pushed token is
trimmed of surrounding whitespace): on quote-free input the tokenizer
equals the declarative space split with empty segments dropped and tokens
trimmed; a double quote toggles a no-split region whose interior (spaces
included) is kept in one token with the quote characters stripped; each
token containing a colon becomes a field filter split at the first colon
with the field name lowercased, and each token without a colon becomes a
free term. -/
theorem query_parsing_spec :
    (∀ s : String, (∀ c ∈ s.toList, c ≠ '"') →
      tokenize s =
        (((spaceSplit s.toList).filter (fun t => decide (t ≠ []))).map
          trimChars).map String.mk) ∧
    (∀ s : List Char, (∀ c ∈ s, c ≠ '"') → s ≠ [] →
      tokenize (String.mk ('"' :: s ++ ['"'])) = [String.mk (trimChars s)]) ∧
    (∀ s : String,
      (Query.ofString s).terms =
        (tokenize s).filter (fun t => decide (':' ∉ t.toList)) ∧
      (Query.ofString s).fieldFilters =
        (tokenize s).filterMap (fun t =>
          (splitAtFirstColon t.toList).map (fun p =>
            (String.mk (p.1.map Char.toLower), String.mk p.2)))) ∧
    (∀ (cs f v : List Char),
      splitAtFirstColon cs = some (f, v) ↔ cs = f ++ ':' :: v ∧ ':' ∉ f) := by
  refine ⟨?_, ?_, ?_, splitAtFirstColon_some_iff⟩
  · intro s h
    show (tokenizeAux s.toList [] false).map String.mk = _
    rw [tokenizeAux_no_quote s.toList [] h,
        prependFirst_nil_of_ne _ (spaceSplit_ne_nil _)]
  · intro s h hne
    show (tokenizeAux (String.mk ('"' :: s ++ ['"'])).toList [] false).map String.mk = _
    have hlist : (String.mk ('"' :: s ++ ['"'])).toList = '"' :: (s ++ ['"']) := rfl
    rw [hlist, tokenizeAux_cons_quote]
    simp only [Bool.not_false]
    rw [tokenizeAux_quoted s [] [] h, List.nil_append]
    show (if s = [] then ([] : List (List Char)) else [trimChars s]).map String.mk = _
    rw [if_neg hne]
    rfl
  · intro s
    have hq : Query.ofString s =
        List.foldl parseTokenStep { terms := [], fieldFilters := [] } (tokenize s) := rfl
    rw [hq, parse_foldl]
    simp

/-- Witness for C9 at concrete queries. -/
theorem query_parsing_witness :
    tokenize "name:John hello" =
      (((spaceSplit ("name:John hello").toList).filter
        (fun t => decide (t ≠ []))).map trimChars).map String.mk ∧
    tokenize (String.mk ('"' :: ['a', ' ', 'b'] ++ ['"'])) =
      [String.mk (trimChars ['a', ' ', 'b'])] ∧
    (splitAtFirstColon ("a:b:c").toList = some (['a'], ['b', ':', 'c']) ↔
      ("a:b:c").toList = ['a'] ++ ':' :: ['b', ':', 'c'] ∧ ':' ∉ ['a']) := by
  refine ⟨query_parsing_spec.1 "name:John hello" (by decide),
          query_parsing_spec.2.1 ['a', ' ', 'b'] (by decide) (by decide),
          query_parsing_spec.2.2.2 ("a:b:c").toList ['a'] ['b', ':', 'c']⟩

/-- The timeline sort is a permutation. -/
theorem sortPostRefs_perm (l : List PostRef) : (sortPostRefs l).Perm l :=
  List.perm_insertionSort _ l

/-- The timeline sort sorts descending by `updatedAt`. -/
theorem sortPostRefs_sorted (l : List PostRef) :
    List.Pairwise PostRef.descLe (sortPostRefs l) :=
  List.sorted_insertionSort _ l

/-- The chat-registry sort is a permutation. -/
theorem sortChatRefs_perm (l : List ChatRef) : (sortChatRefs l).Perm l :=
  List.perm_insertionSort _ l

/-- The chat-registry sort sorts descending by `updatedAt`. -/
theorem sortChatRefs_sorted (l : List ChatRef) :
    List.Pairwise ChatRef.descLe (sortChatRefs l) :=
  List.sorted_insertionSort _ l

/-- Every `postsUpdated` leaves the timeline within capacity and sorted. -/
theorem postsUpdated_basic (tl : UserTimeline) (b : List PostRef) (now : Timestamp) :
    (postsUpdated tl b now).posts.length ≤ POSTS_MAX_COUNT ∧
    List.Pairwise PostRef.descLe (postsUpdated tl b now).posts := by
  constructor
  · exact List.length_take_le _ _
  · exact List.Pairwise.sublist (List.take_sublist _ _) (sortPostRefs_sorted _)

/-- A `postsUpdated` batch with pairwise-distinct post ids preserves the
at-most-one-entry-per-id invariant. -/
theorem postsUpdated_nodup (tl : UserTimeline) (b : List PostRef) (now : Timestamp)
    (h : (tl.posts.map PostRef.postId).Nodup)
    (hb : (b.map PostRef.postId).Nodup) :
    ((postsUpdated tl b now).posts.map PostRef.postId).Nodup := by
  have hkept : ((tl.posts.filter (fun p =>
      !((b.map (fun q => q.postId)).contains p.postId))).map PostRef.postId).Nodup :=
    List.Nodup.sublist (List.Sublist.map _ (List.filter_sublist _)) h
  have hdisj : ∀ x ∈ (tl.posts.filter (fun p =>
      !((b.map (fun q => q.postId)).contains p.postId))).map PostRef.postId,
      x ∉ b.map PostRef.postId := by
    intro x hx
    rcases List.mem_map.mp hx with ⟨p, hp, hpx⟩
    rcases List.mem_filter.mp hp with ⟨_, hcon⟩
    rw [Bool.not_eq_eq_eq_not, Bool.not_true] at hcon
    intro hmem
    have : p.postId ∈ b.map (fun q => q.postId) := by
      rw [← hpx] at hmem
      simpa using hmem
    rw [← List.elem_iff] at this
    rw [show (b.map (fun q => q.postId)).contains p.postId =
        (b.map (fun q => q.postId)).elem p.postId from rfl, this] at hcon
    cases hcon
  have hmerged : (((tl.posts.filter (fun p =>
      !((b.map (fun q => q.postId)).contains p.postId))) ++ b).map
        PostRef.postId).Nodup := by
    rw [List.map_append]
    exact List.Nodup.append hkept hb hdisj
  have hsortnd : ((sortPostRefs ((tl.posts.filter (fun p =>
      !((b.map (fun q => q.postId)).contains p.postId))) ++ b)).map
        PostRef.postId).Nodup :=
    ((sortPostRefs_perm _).map PostRef.postId).symm.nodup hmerged
  show (((sortPostRefs _).take POSTS_MAX_COUNT).map PostRef.postId).Nodup
  rw [List.map_take]
  exact List.Nodup.sublist (List.take_sublist _ _) hsortnd

/-- Capacity and sortedness of a timeline after any batch sequence. -/
theorem applyTimelineBatches_basic :
    ∀ (batches : List (List PostRef × Timestamp)) (tl : UserTimeline),
      tl.posts.length ≤ POSTS_MAX_COUNT →
      List.Pairwise PostRef.descLe tl.posts →
      ((applyTimelineBatches tl batches).posts.length ≤ POSTS_MAX_COUNT ∧
       List.Pairwise PostRef.descLe (applyTimelineBatches tl batches).posts) := by
  intro batches
  induction batches with
  | nil => intro tl h1 h2; exact ⟨h1, h2⟩
  | cons bt rest ih =>
      intro tl _ _
      exact ih (postsUpdated tl bt.1 bt.2)
        (postsUpdated_basic tl bt.1 bt.2).1 (postsUpdated_basic tl bt.1 bt.2).2

/-- Dedup invariant of a timeline after any sequence of batches whose post
ids are pairwise distinct within each batch. -/
theorem applyTimelineBatches_nodup :
    ∀ (batches : List (List PostRef × Timestamp)) (tl : UserTimeline),
      (tl.posts.map PostRef.postId).Nodup →
      (∀ bt ∈ batches, (bt.1.map PostRef.postId).Nodup) →
      ((applyTimelineBatches tl batches).posts.map PostRef.postId).Nodup := by
  intro batches
  induction batches with
  | nil => intro tl h _; exact h
  | cons bt rest ih =>
      intro tl h hb
      exact ih (postsUpdated tl bt.1 bt.2)
        (postsUpdated_nodup tl bt.1 bt.2 h (hb bt (List.mem_cons_self bt rest)))
        (fun x hx => hb x (List.mem_cons_of_mem bt hx))

/-- `setUpdatedAtFirst` does not change the stored chat ids. -/
theorem setUpdatedAtFirst_ids (cid : String) (ts : Timestamp) :
    ∀ (l l2 : List ChatRef), setUpdatedAtFirst cid ts l = some l2 →
      l2.map ChatRef.chatId = l.map ChatRef.chatId := by
  intro l
  induction l with
  | nil => intro l2 h; exact Option.noConfusion h
  | cons c cs ih =>
      intro l2 h
      by_cases hc : c.chatId = cid
      · rw [show setUpdatedAtFirst cid ts (c :: cs) =
            some ({ c with updatedAt := ts } :: cs) from by
              simp [setUpdatedAtFirst, hc]] at h
        injection h with h2
        rw [← h2]
        rfl
      · rw [show setUpdatedAtFirst cid ts (c :: cs) =
            (setUpdatedAtFirst cid ts cs).map (fun cs2 => c :: cs2) from by
              simp [setUpdatedAtFirst, hc]] at h
        rcases Option.map_eq_some'.mp h with ⟨cs2, hcs2, hl2⟩
        rw [← hl2]
        simp only [List.map_cons]
        rw [ih cs2 hcs2]

/-- Step behavior of `addChat` on the registry invariants. -/
theorem addChat_step (st : UserChats) (cid cb : String) (ca now : Timestamp)
    (h1 : st.chats.length ≤ CHATS_MAX_COUNT)
    (h2 : List.Pairwise ChatRef.descLe st.chats) :
    (addChat st cid cb ca now).chats.length ≤ CHATS_MAX_COUNT ∧
    List.Pairwise ChatRef.descLe (addChat st cid cb ca now).chats ∧
    ((st.chats.map ChatRef.chatId).Nodup →
      ((addChat st cid cb ca now).chats.map ChatRef.chatId).Nodup) ∧
    (∀ x ∈ (addChat st cid cb ca now).chats.map ChatRef.chatId,
      x ∈ st.chats.map ChatRef.chatId ∨ x = cid) := by
  by_cases hex : st.chats.any (fun c => c.chatId == cid)
  · simp only [addChat, if_pos hex]
    exact ⟨h1, h2, fun h => h, fun x hx => Or.inl hx⟩
  · have hfresh : cid ∉ st.chats.map ChatRef.chatId := by
      intro hmem
      apply hex
      rw [List.any_eq_true]
      rcases List.mem_map.mp hmem with ⟨c, hc, hcx⟩
      exact ⟨c, hc, by simp [hcx]⟩
    simp only [addChat, if_neg hex]
    refine ⟨List.length_take_le _ _,
            List.Pairwise.sublist (List.take_sublist _ _) (sortChatRefs_sorted _),
            ?_, ?_⟩
    · intro hnd
      have hpush : ((st.chats ++
          [({ chatId := cid, createdBy := cb, createdAt := ca
              updatedAt := now } : ChatRef)]).map
            ChatRef.chatId).Nodup := by
        rw [List.map_append]
        refine List.Nodup.append hnd (List.nodup_singleton _) ?_
        intro x hx hx2
        rw [List.map_singleton, List.mem_singleton] at hx2
        subst hx2
        exact hfresh hx
      have hsortnd := ((sortChatRefs_perm _).map ChatRef.chatId).symm.nodup hpush
      show (((sortChatRefs _).take CHATS_MAX_COUNT).map ChatRef.chatId).Nodup
      rw [List.map_take]
      exact List.Nodup.sublist (List.take_sublist _ _) hsortnd
    · intro x hx
      show x ∈ st.chats.map ChatRef.chatId ∨ x = cid
      rw [List.map_take] at hx
      have hx2 := (List.take_sublist _ _).subset hx
      have hx3 := (((sortChatRefs_perm _).map ChatRef.chatId).mem_iff).mp hx2
      rw [List.map_append] at hx3
      rcases List.mem_append.mp hx3 with h | h
      · exact Or.inl h
      · rw [List.map_singleton, List.mem_singleton] at h
        exact Or.inr h

/-- Step behavior of `chatUpdated` on the registry invariants. -/
theorem chatUpdated_step (st : UserChats) (cid : String) (uat now : Timestamp)
    (h1 : st.chats.length ≤ CHATS_MAX_COUNT)
    (h2 : List.Pairwise ChatRef.descLe st.chats) :
    (chatUpdated st cid uat now).2.chats.length ≤ CHATS_MAX_COUNT ∧
    List.Pairwise ChatRef.descLe (chatUpdated st cid uat now).2.chats ∧
    ((st.chats.map ChatRef.chatId).Nodup →
      ((chatUpdated st cid uat now).2.chats.map ChatRef.chatId).Nodup) ∧
    (∀ x ∈ (chatUpdated st cid uat now).2.chats.map ChatRef.chatId,
      x ∈ st.chats.map ChatRef.chatId) := by
  cases hset : setUpdatedAtFirst cid uat st.chats with
  | none =>
      simp only [chatUpdated, hset]
      exact ⟨h1, h2, fun h => h, fun x hx => hx⟩
  | some l2 =>
      simp only [chatUpdated, hset]
      have hids : l2.map ChatRef.chatId = st.chats.map ChatRef.chatId :=
        setUpdatedAtFirst_ids cid uat st.chats l2 hset
      have hlen : l2.length = st.chats.length := by
        have := congrArg List.length hids
        simpa using this
      refine ⟨?_, sortChatRefs_sorted _, ?_, ?_⟩
      · have := (sortChatRefs_perm l2).length_eq
        rw [this, hlen]
        exact h1
      · intro hnd
        refine ((sortChatRefs_perm l2).map ChatRef.chatId).symm.nodup ?_
        rw [hids]
        exact hnd
      · intro x hx
        have hx2 := (((sortChatRefs_perm l2).map ChatRef.chatId).mem_iff).mp hx
        rw [hids] at hx2
        exact hx2

/-- Step behavior of `createChat` on the registry invariants. -/
theorem createChat_step (st : UserChats) (cid : String) (now : Timestamp) :
    (createChat st cid now).chats.length ≤ CHATS_MAX_COUNT ∧
    List.Pairwise ChatRef.descLe (createChat st cid now).chats ∧
    ((st.chats.map ChatRef.chatId).Nodup → cid ∉ st.chats.map ChatRef.chatId →
      ((createChat st cid now).chats.map ChatRef.chatId).Nodup) ∧
    (∀ x ∈ (createChat st cid now).chats.map ChatRef.chatId,
      x ∈ st.chats.map ChatRef.chatId ∨ x = cid) := by
  refine ⟨List.length_take_le _ _,
          List.Pairwise.sublist (List.take_sublist _ _) (sortChatRefs_sorted _),
          ?_, ?_⟩
  · intro hnd hfresh
    have hpush : ((st.chats ++
        [({ chatId := cid, createdBy := st.userId, createdAt := now
            updatedAt := now } : ChatRef)]).map ChatRef.chatId).Nodup := by
      rw [List.map_append]
      refine List.Nodup.append hnd (List.nodup_singleton _) ?_
      intro x hx hx2
      rw [List.map_singleton, List.mem_singleton] at hx2
      subst hx2
      exact hfresh hx
    have hsortnd := ((sortChatRefs_perm _).map ChatRef.chatId).symm.nodup hpush
    show (((sortChatRefs _).take CHATS_MAX_COUNT).map ChatRef.chatId).Nodup
    rw [List.map_take]
    exact List.Nodup.sublist (List.take_sublist _ _) hsortnd
  · intro x hx
    have hx0 : x ∈ ((sortChatRefs (st.chats ++
        [({ chatId := cid, createdBy := st.userId, createdAt := now
            updatedAt := now } : ChatRef)])).take CHATS_MAX_COUNT).map
          ChatRef.chatId := hx
    rw [List.map_take] at hx0
    have hx2 := (List.take_sublist _ _).subset hx0
    have hx3 := (((sortChatRefs_perm _).map ChatRef.chatId).mem_iff).mp hx2
    rw [List.map_append] at hx3
    rcases List.mem_append.mp hx3 with h | h
    · exact Or.inl h
    · rw [List.map_singleton, List.mem_singleton] at h
      exact Or.inr h

/-- Invariants of the chat registry along any operation sequence: capacity
and sortedness always, and at most one entry per chat id when every
`createChat` id is fresh. -/
theorem applyChatOps_inv :
    ∀ (ops : List ChatRegOp) (st : UserChats) (seen : List String),
      st.chats.length ≤ CHATS_MAX_COUNT →
      List.Pairwise ChatRef.descLe st.chats →
      ((applyChatOps st ops).chats.length ≤ CHATS_MAX_COUNT ∧
       List.Pairwise ChatRef.descLe (applyChatOps st ops).chats ∧
       (chatOpsFresh seen ops → (st.chats.map ChatRef.chatId).Nodup →
        (∀ x ∈ st.chats.map ChatRef.chatId, x ∈ seen) →
        ((applyChatOps st ops).chats.map ChatRef.chatId).Nodup)) := by
  intro ops
  induction ops with
  | nil => intro st seen h1 h2; exact ⟨h1, h2, fun _ h _ => h⟩
  | cons op rest ih =>
      intro st seen h1 h2
      cases op with
      | addChat cid cb ca now =>
          have hstep := addChat_step st cid cb ca now h1 h2
          have hrest := ih (addChat st cid cb ca now) (cid :: seen) hstep.1 hstep.2.1
          refine ⟨hrest.1, hrest.2.1, ?_⟩
          intro hfresh hnd hsub
          exact hrest.2.2 hfresh (hstep.2.2.1 hnd) (fun x hx =>
            match hstep.2.2.2 x hx with
            | Or.inl h => List.mem_cons_of_mem _ (hsub x h)
            | Or.inr h => h ▸ List.mem_cons_self _ _)
      | chatUpdated cid uat now =>
          have hstep := chatUpdated_step st cid uat now h1 h2
          have hrest := ih (chatUpdated st cid uat now).2 seen hstep.1 hstep.2.1
          refine ⟨hrest.1, hrest.2.1, ?_⟩
          intro hfresh hnd hsub
          exact hrest.2.2 hfresh (hstep.2.2.1 hnd) (fun x hx =>
            hsub x (hstep.2.2.2 x hx))
      | createChat cid now =>
          have hstep := createChat_step st cid now
          have hrest := ih (createChat st cid now) (cid :: seen) hstep.1 hstep.2.1
          refine ⟨hrest.1, hrest.2.1, ?_⟩
          intro hfresh hnd hsub
          have hcid : cid ∉ st.chats.map ChatRef.chatId := fun hx =>
            hfresh.1 (hsub cid hx)
          exact hrest.2.2 hfresh.2 (hstep.2.2.1 hnd hcid) (fun x hx =>
            match hstep.2.2.2 x hx with
            | Or.inl h => List.mem_cons_of_mem _ (hsub x h)
            | Or.inr h => h ▸ List.mem_cons_self _ _)

/-- C1 counterexample: a single `postsUpdated` batch carrying two refs with
the same post id leaves both entries on the timeline — the registry does
not hold at-most-one-entry-per-id in that case. -/
theorem registry_dupbatch_counterexample :
    ¬ (((postsUpdated (emptyTimeline "u" ⟨"t0"⟩)
          [{ postId := "a", createdBy := "u", createdByConnectionType := none
             createdAt := ⟨"t1"⟩, updatedAt := ⟨"t1"⟩ },
           { postId := "a", createdBy := "u", createdByConnectionType := none
             createdAt := ⟨"t2"⟩, updatedAt := ⟨"t2"⟩ }]
          ⟨"t3"⟩).posts.map PostRef.postId).Nodup) := by
  decide

/-- C1 (amended): after any sequence of upserts starting from the empty
registry, the list has length at most 500 and is sorted by `updatedAt`
descending (string-lexicographic comparison); it contains at most one entry
per underlying id provided every `postsUpdated` batch carries pairwise
distinct post ids (and every created chat id is fresh) — a batch containing
two refs with the same post id retains both. -/
theorem registry_invariants_spec :
    ∀ (uid : String) (t0 : Timestamp)
      (batches : List (List PostRef × Timestamp)) (ops : List ChatRegOp),
      (applyTimelineBatches (emptyTimeline uid t0) batches).posts.length ≤
        POSTS_MAX_COUNT ∧
      List.Pairwise PostRef.descLe
        (applyTimelineBatches (emptyTimeline uid t0) batches).posts ∧
      ((∀ bt ∈ batches, (bt.1.map PostRef.postId).Nodup) →
        ((applyTimelineBatches (emptyTimeline uid t0) batches).posts.map
          PostRef.postId).Nodup) ∧
      (applyChatOps (emptyUserChats uid t0) ops).chats.length ≤ CHATS_MAX_COUNT ∧
      List.Pairwise ChatRef.descLe (applyChatOps (emptyUserChats uid t0) ops).chats ∧
      (chatOpsFresh [] ops →
        ((applyChatOps (emptyUserChats uid t0) ops).chats.map ChatRef.chatId).Nodup) := by
  intro uid t0 batches ops
  have htl := applyTimelineBatches_basic batches (emptyTimeline uid t0)
    (by simp [emptyTimeline, POSTS_MAX_COUNT]) (by simp [emptyTimeline])
  have hch := applyChatOps_inv ops (emptyUserChats uid t0) []
    (by simp [emptyUserChats, CHATS_MAX_COUNT]) (by simp [emptyUserChats])
  refine ⟨htl.1, htl.2, ?_, hch.1, hch.2.1, ?_⟩
  · intro hb
    exact applyTimelineBatches_nodup batches (emptyTimeline uid t0)
      (by simp [emptyTimeline]) hb
  · intro hfresh
    exact hch.2.2 hfresh (by simp [emptyUserChats]) (by simp [emptyUserChats])

/-- Witness for C1 at a concrete operation sequence. -/
theorem registry_invariants_witness :
    ((applyTimelineBatches (emptyTimeline "u" ⟨"t0"⟩)
        [([{ postId := "a", createdBy := "u"
             createdByConnectionType := none
             createdAt := ⟨"t1"⟩, updatedAt := ⟨"t1"⟩ },
           { postId := "b", createdBy := "u"
             createdByConnectionType := none
             createdAt := ⟨"t2"⟩, updatedAt := ⟨"t2"⟩ }], ⟨"t3"⟩)]).posts.map
      PostRef.postId).Nodup ∧
    ((applyChatOps (emptyUserChats "u" ⟨"t0"⟩)
        [ChatRegOp.createChat "c1" ⟨"t1"⟩,
         ChatRegOp.chatUpdated "c1" ⟨"t2"⟩ ⟨"t2"⟩]).chats.map
      ChatRef.chatId).Nodup := by
  constructor
  · exact (registry_invariants_spec "u" ⟨"t0"⟩
      [([{ postId := "a", createdBy := "u"
           createdByConnectionType := none
           createdAt := ⟨"t1"⟩, updatedAt := ⟨"t1"⟩ },
         { postId := "b", createdBy := "u"
           createdByConnectionType := none
           createdAt := ⟨"t2"⟩, updatedAt := ⟨"t2"⟩ }], ⟨"t3"⟩)]
      []).2.2.1 (by decide)
  · exact (registry_invariants_spec "u" ⟨"t0"⟩ []
      [ChatRegOp.createChat "c1" ⟨"t1"⟩,
       ChatRegOp.chatUpdated "c1" ⟨"t2"⟩ ⟨"t2"⟩]).2.2.2.2.2 ⟨by simp, trivial⟩

end SocialNet
